import Mathlib

/-!
# SBMInfo: a shallow embedding of `src/SBMInfo.cpp`

The sketch polls a Smart Battery over a bit-banged two-wire bus, decodes the
registers through a table of function descriptors and reports the values on a
serial console and on a character display.

The embedding passes the state explicitly.  `Env` holds the global variables of
the sketch other than the descriptor tables, the bytes the device will answer
with, and the traces of what was sent to the bus, the console and the display.
A descriptor is passed and returned by value where the source passes a pointer.
The target is an AVR: `int` and `unsigned int` are 16 bits wide, `long` is 32
bits wide, and arithmetic on them is written with explicit reductions.
-/

namespace SBMInfo

/-! ## Machine integers -/

/-- The value of a 16-bit pattern read as `int` (twos complement). -/
def toInt16 (n : Nat) : Int :=
  if n % 65536 < 32768 then ((n % 65536 : Nat) : Int) else ((n % 65536 : Nat) : Int) - 65536

/-- Conversion of an integer to `uint16_t`: reduction modulo 2^16. -/
def toUInt16 (i : Int) : Nat := (i % 65536).toNat

/-- The value of a 32-bit pattern read as `long` (twos complement). -/
def toInt32 (i : Int) : Int :=
  if i % 4294967296 < 2147483648 then i % 4294967296 else i % 4294967296 - 4294967296

/-- Subtraction of `unsigned int` operands on the 16-bit target. -/
def sub16 (a b : Nat) : Nat := (a % 65536 + 65536 - b % 65536) % 65536

/-- Addition of `unsigned int` operands on the 16-bit target. -/
def add16 (a b : Nat) : Nat := (a + b) % 65536

/-! ## Output sinks and the bus trace -/

/-- One item handed to a `print` call of the console or of the display. -/
inductive Out where
  /-- A string, flash string or character. -/
  | text (s : String)
  /-- An integer printed in decimal. -/
  | dec (n : Int)
  /-- An integer printed in base 2. -/
  | bin (n : Nat)
  /-- An integer printed in base 16. -/
  | hex (n : Nat)
  /-- The raw bytes handed to `Serial.write`. -/
  | bytes (l : List Nat)
  /-- The float `raw / divisor` printed with `digits` decimals. -/
  | fixed (raw : Nat) (divisor : Nat) (digits : Nat)
  /-- The float `raw / 10.0 - 273.15` printed with the default two decimals. -/
  | celsius (raw : Nat)
  /-- The line end written by `println`. -/
  | newline
  deriving DecidableEq, Repr

/-- One call on the character display `myLCD`. -/
inductive LcdEvent where
  | setCursor (col row : Nat)
  | print (o : Out)
  deriving DecidableEq, Repr

/-- One call of a transport primitive of SoftI2CMaster. -/
inductive BusEvent where
  | start (addr : Nat)
  | repStart (addr : Nat)
  | write (byte : Nat)
  | read (last : Bool)
  | stop
  deriving DecidableEq, Repr

/-- The global state of the sketch other than the descriptor tables.
`rx k` is the byte the device answers to the `k`-th call of `i2c_read`
(only its low eight bits are used) and `rxCount` counts the calls made so far. -/
structure Env where
  rx : Nat → Nat
  rxCount : Nat
  bus : List BusEvent
  interruptsEnabled : Bool
  delayed : Nat
  serial : List Out
  lcd : List LcdEvent
  sI2CDeviceAddress : Nat
  sCapacityModePower : Bool
  sDesignVoltage : Nat
  undefinedBehaviour : Bool

/-- The constants of `SBMInfo.h` used by the embedded code: the two unit
strings, the flag masks of the battery mode and battery status words, the
function codes of the registers and the commands of the manufacturer access.
The header is not part of the sources; the constants are parameters of the
embedding.  The source uses the one macro `REMAINING_CAPACITY_ALARM` both as
the function code of a static descriptor and as a mask in `printBatteryStatus`. -/
structure SBMInfoH where
  StringCapacityModePower : String
  StringCapacityModeCurrent : String
  INTERNAL_CHARGE_CONTROLLER : Nat
  CONDITION_FLAG : Nat
  CHARGE_CONTROLLER : Nat
  ALARM_MODE : Nat
  CHARGER_MODE : Nat
  CAPACITY_MODE : Nat
  OVER_CHARGED_ALARM : Nat
  TERMINATE_CHARGE_ALARM : Nat
  OVER_TEMP_ALARM : Nat
  TERMINATE_DISCHARGE_ALARM : Nat
  REMAINING_CAPACITY_ALARM : Nat
  REMAINING_TIME_ALARM_FLAG : Nat
  INITIALIZED : Nat
  DISCHARGING : Nat
  FULLY_CHARGED : Nat
  FULLY_DISCHARGED : Nat
  MANUFACTURER_ACCESS : Nat
  CELL1_VOLTAGE : Nat
  CELL2_VOLTAGE : Nat
  CELL3_VOLTAGE : Nat
  CELL4_VOLTAGE : Nat
  STATE_OF_HEALTH : Nat
  SERIAL_NUM : Nat
  MFG_DATE : Nat
  DESIGN_CAPACITY : Nat
  DESIGN_VOLTAGE : Nat
  CHARGING_CURRENT : Nat
  CHARGING_VOLTAGE : Nat
  SPEC_INFO : Nat
  CYCLE_COUNT : Nat
  MAX_ERROR : Nat
  REMAINING_TIME_ALARM : Nat
  BATTERY_MODE : Nat
  PACK_STATUS : Nat
  CELL_CHEM : Nat
  MFG_NAME : Nat
  MANUFACTURER_DATA : Nat
  DEV_NAME : Nat
  FULL_CHARGE_CAPACITY : Nat
  REMAINING_CAPACITY : Nat
  RELATIVE_SOC : Nat
  ABSOLUTE_SOC : Nat
  RUN_TIME_TO_EMPTY : Nat
  AVERAGE_TIME_TO_EMPTY : Nat
  TIME_TO_FULL : Nat
  BATTERY_STATUS : Nat
  VOLTAGE : Nat
  CURRENT : Nat
  AverageCurrent : Nat
  TEMPERATURE : Nat
  AtRate : Nat
  AtRateTimeToFull : Nat
  AtRateTimeToEmpty : Nat
  AtRateOK : Nat
  BQ20Z70_ChargingStatus : Nat
  BQ20Z70_OperationStatus : Nat
  BQ20Z70_PackVoltage : Nat
  TI_Device_Type : Nat
  TI_Firmware_Version : Nat
  BQ2084_EDV_level : Nat
  BQ20Z70_Hardware_Version : Nat
  BQ20Z70_Manufacturer_Status : Nat
  BQ20Z70_PFStatus : Nat

/-- The formatter a descriptor points to (`ValueFormatter`). -/
inductive Formatter where
  | printBinary
  | printSigned
  | printCapacity
  | printPercentage
  | printTime
  | printBatteryMode
  | printBatteryStatus
  | printManufacturerDate
  | printVoltage
  | printCurrent
  | printTemperature
  deriving DecidableEq, Repr

/-- The descriptor `struct SBMFunctionDescriptionStruct`: the fields in the
order of the aggregate initialisers of the tables, then the cached value.
A null `ValueFormatter` or `DescriptionLCD` is `none`. -/
structure SBMFunctionDescriptionStruct where
  FunctionCode : Nat
  Description : String
  ValueFormatter : Option Formatter
  DescriptionLCD : Option String
  lastValue : Nat
  deriving DecidableEq, Repr

/-! ## Primitives consumed by the sketch -/

def I2C_WRITE : Nat := 0
def I2C_READ : Nat := 1

def cli (e : Env) : Env := { e with interruptsEnabled := false }

def sei (e : Env) : Env := { e with interruptsEnabled := true }

def delay (ms : Nat) (e : Env) : Env := { e with delayed := e.delayed + ms }

/-- Append one event to the bus trace (an 8-bit argument is reduced modulo 256).
The transport primitives of SoftI2CMaster are not part of the sources: they
are modelled by their trace and the bytes read, and the interrupt flag is
written by `cli` and `sei` only. -/
def busEvent (ev : BusEvent) (e : Env) : Env := { e with bus := e.bus ++ [ev] }

def i2c_start (addr : Nat) (e : Env) : Env := busEvent (.start (addr % 256)) e

def i2c_rep_start (addr : Nat) (e : Env) : Env := busEvent (.repStart (addr % 256)) e

def i2c_write (byte : Nat) (e : Env) : Env := busEvent (.write (byte % 256)) e

def i2c_stop (e : Env) : Env := busEvent .stop e

/-- Read one byte from the device: the next byte of `rx`. -/
def i2c_read (last : Bool) (e : Env) : Nat × Env :=
  (e.rx e.rxCount % 256, { e with rxCount := e.rxCount + 1, bus := e.bus ++ [.read last] })

def Serial_print (o : Out) (e : Env) : Env := { e with serial := e.serial ++ [o] }

def Serial_println (o : Out) (e : Env) : Env := { e with serial := e.serial ++ [o, .newline] }

def Serial_newline (e : Env) : Env := { e with serial := e.serial ++ [.newline] }

def myLCD_setCursor (col row : Nat) (e : Env) : Env :=
  { e with lcd := e.lcd ++ [.setCursor col row] }

def myLCD_print (o : Out) (e : Env) : Env := { e with lcd := e.lcd ++ [.print o] }

/-- The assignment `sCapacityModePower = true`. -/
def setCapacityModePower (e : Env) : Env := { e with sCapacityModePower := true }

/-- Record that the source has executed an operation without defined behaviour
when the condition holds. -/
def flagUndefinedIf (c : Bool) (e : Env) : Env :=
  { e with undefinedBehaviour := e.undefinedBehaviour || c }

/-- Run a step only when the condition holds (an `if` without `else`). -/
def onlyIf (c : Bool) (f : Env → Env) (e : Env) : Env := if c then f e else e

/-! ## Bus transactions -/

/-- The function `readWord` (lines 284-294).  The result is an `int`; the
statement `sei()` stands after the `return` and is never executed. -/
def readWord (aFunction : Nat) (e : Env) : Int × Env :=
  let e1 := e |> cli
    |> i2c_start ((e.sI2CDeviceAddress <<< 1) ||| I2C_WRITE)
    |> i2c_write aFunction
    |> i2c_rep_start ((e.sI2CDeviceAddress <<< 1) ||| I2C_READ)
  let r1 := i2c_read false e1
  let r2 := i2c_read true r1.2
  let e2 := i2c_stop r2.2
  (toInt16 (r1.1 ||| (r2.1 <<< 8)), e2)

/-- The function `writeWord` (lines 296-305). -/
def writeWord (aFunction : Nat) (aValue : Nat) (e : Env) : Env :=
  e |> cli
    |> i2c_start ((e.sI2CDeviceAddress <<< 1) ||| I2C_WRITE)
    |> i2c_write aFunction
    |> i2c_rep_start ((e.sI2CDeviceAddress <<< 1) ||| I2C_WRITE)
    |> i2c_write (aValue &&& 0xFF)
    |> i2c_write ((aValue >>> 8) &&& 0xFF)
    |> i2c_stop
    |> sei

/-- The function `readWordFromManufacturerAccess` (lines 307-325). -/
def readWordFromManufacturerAccess (H : SBMInfoH) (aCommand : Nat) (e : Env) : Int × Env :=
  let e1 := e |> cli
    |> i2c_start ((e.sI2CDeviceAddress <<< 1) ||| I2C_WRITE)
    |> i2c_write H.MANUFACTURER_ACCESS
    |> i2c_rep_start ((e.sI2CDeviceAddress <<< 1) ||| I2C_WRITE)
    |> i2c_write aCommand
    |> i2c_write (aCommand >>> 8)
    |> i2c_stop
    |> i2c_start ((e.sI2CDeviceAddress <<< 1) ||| I2C_WRITE)
    |> i2c_write H.MANUFACTURER_ACCESS
    |> i2c_rep_start ((e.sI2CDeviceAddress <<< 1) ||| I2C_READ)
  let r1 := i2c_read false e1
  let r2 := i2c_read true r1.2
  let e2 := sei (i2c_stop r2.2)
  (toInt16 (r1.1 ||| (r2.1 <<< 8)), e2)

/-- The result of `readBlock`: the returned length, the stores made into the
caller buffer in program order (index, byte), and the state afterwards. -/
structure BlockResult where
  length : Nat
  stores : List (Nat × Nat)
  env : Env

/-- The loop `for (tIndex = 0; tIndex < tLengthOfData - 1; tIndex++)` of
`readBlock`, entered at `tIndex`: while the condition holds, one byte is read
with acknowledge and stored at `tIndex`.  The comparison is made in `int`, so
for a length of 0 the bound is -1.  The first argument bounds the number of
iterations; an 8-bit index below an 8-bit length needs fewer than 256. -/
def readBlockLoop : Nat → Nat → Nat → List (Nat × Nat) → Env → Nat × List (Nat × Nat) × Env
  | 0, _, tIndex, stores, e => (tIndex, stores, e)
  | fuel + 1, tLengthOfData, tIndex, stores, e =>
    if (tIndex : Int) < (tLengthOfData : Int) - 1 then
      let r := i2c_read false e
      readBlockLoop fuel tLengthOfData (tIndex + 1) (stores ++ [(tIndex, r.1)]) r.2
    else (tIndex, stores, e)

/-- The function `readBlock` (lines 327-350).  The device sends the length
first; it is clamped to the buffer length, `tLengthOfData - 1` bytes are read
in the loop, and the last byte is read and stored unconditionally. -/
def readBlock (aCommand : Nat) (aDataBufferLength : Nat) (e : Env) : BlockResult :=
  let e1 := e |> cli
    |> i2c_start (((e.sI2CDeviceAddress <<< 1) + I2C_WRITE))
    |> i2c_write aCommand
    |> i2c_rep_start (((e.sI2CDeviceAddress <<< 1) + I2C_READ))
  let r0 := i2c_read false e1
  let tLengthOfData := if r0.1 > aDataBufferLength % 256 then aDataBufferLength % 256 else r0.1
  let l := readBlockLoop 256 tLengthOfData 0 [] r0.2
  let rl := i2c_read true l.2.2
  let e2 := sei (i2c_stop rl.2)
  { length := tLengthOfData, stores := l.2.1 ++ [(l.1, rl.1)], env := e2 }

/-! ## Formatters -/

/-- The function `printBinary` (lines 392-396). -/
def printBinary (d : SBMFunctionDescriptionStruct) (aValue : Nat) (e : Env) : Env :=
  e |> Serial_print (.text d.Description)
    |> Serial_print (.text "0b")
    |> Serial_println (.bin aValue)

/-- The function `printSigned` (lines 398-401). -/
def printSigned (d : SBMFunctionDescriptionStruct) (aValue : Nat) (e : Env) : Env :=
  e |> Serial_print (.text d.Description)
    |> Serial_println (.dec (toInt16 aValue))

/-- The function `getCapacityModeUnit` (lines 403-409). -/
def getCapacityModeUnit (H : SBMInfoH) (e : Env) : String :=
  if e.sCapacityModePower then H.StringCapacityModePower else H.StringCapacityModeCurrent

/-- The value `(aCapacity * 10000L) / sDesignVoltage` stored back into the
`uint16_t` parameter: the product and the quotient are formed in `long`. -/
def derivedCapacity (aCapacity : Nat) (sDesignVoltage : Nat) : Nat :=
  toUInt16 (toInt32 (Int.tdiv (toInt32 ((aCapacity : Int) * 10000)) (sDesignVoltage : Int)))

/-- The function `printCapacity` (lines 411-434).  A division by a design
voltage of 0 is undefined in the source; the model flags it. -/
def printCapacity (H : SBMInfoH) (d : SBMFunctionDescriptionStruct) (aCapacity : Nat)
    (e : Env) : Env :=
  let e1 := e |> Serial_print (.text d.Description)
    |> Serial_print (.dec aCapacity)
    |> Serial_print (.text (getCapacityModeUnit H e))
    |> Serial_print (.text "h")
  let aCapacity2 := if e.sCapacityModePower then derivedCapacity aCapacity e.sDesignVoltage
    else aCapacity
  let e2 := e1
    |> onlyIf e.sCapacityModePower (fun x => x
        |> Serial_print (.text " | ")
        |> flagUndefinedIf (decide (e.sDesignVoltage = 0))
        |> Serial_print (.dec aCapacity2)
        |> Serial_print (.text H.StringCapacityModeCurrent)
        |> Serial_print (.text "h"))
    |> Serial_newline
  match d.DescriptionLCD with
  | none => e2
  | some l => e2
    |> myLCD_setCursor 0 3
    |> myLCD_print (.text l)
    |> myLCD_print (.dec aCapacity2)
    |> myLCD_print (.text H.StringCapacityModeCurrent)
    |> myLCD_print (.text "h")

/-- The function `printPercentage` (lines 436-446). -/
def printPercentage (d : SBMFunctionDescriptionStruct) (aPercentage : Nat) (e : Env) : Env :=
  let e1 := e |> Serial_print (.text d.Description)
    |> Serial_print (.dec aPercentage)
    |> Serial_println (.text " %")
  match d.DescriptionLCD with
  | none => e1
  | some l => e1
    |> myLCD_setCursor 0 2
    |> myLCD_print (.dec aPercentage)
    |> myLCD_print (.text " %")
    |> myLCD_print (.text l)

/-- The function `printTime` (lines 448-461). -/
def printTime (d : SBMFunctionDescriptionStruct) (aMinutes : Nat) (e : Env) : Env :=
  let e1 := Serial_print (.text d.Description) e
  if aMinutes = 65535 then
    Serial_println (.text "Battery not beeing (dis)charged") e1
  else
    let e2 := e1 |> Serial_print (.dec aMinutes) |> Serial_println (.text " min")
    match d.DescriptionLCD with
    | none => e2
    | some l => e2
      |> myLCD_setCursor 0 1
      |> myLCD_print (.dec aMinutes)
      |> myLCD_print (.text l)

/-- The condition of `printVoltage` and `printCurrent`:
`aValue < lastValue - 1 || lastValue + 1 < aValue` on `unsigned int`. -/
def changedByTwo (lastValue aValue : Nat) : Bool :=
  decide (aValue < sub16 lastValue 1) || decide (add16 lastValue 1 < aValue)

/-- The function `printVoltage` (lines 466-477). -/
def printVoltage (d : SBMFunctionDescriptionStruct) (aVoltage : Nat) (e : Env) : Env :=
  if changedByTwo d.lastValue aVoltage then
    let e1 := e |> Serial_print (.text d.Description)
      |> Serial_print (.fixed aVoltage 1000 3)
      |> Serial_println (.text " Volt")
    match d.DescriptionLCD with
    | none => e1
    | some _ => e1
      |> myLCD_setCursor 0 0
      |> myLCD_print (.fixed aVoltage 1000 3)
      |> myLCD_print (.text " Volt")
  else e

/-- The function `printCurrent` (lines 482-496). -/
def printCurrent (d : SBMFunctionDescriptionStruct) (aCurrent : Nat) (e : Env) : Env :=
  if changedByTwo d.lastValue aCurrent then
    let e1 := e |> Serial_print (.text d.Description)
      |> Serial_print (.dec (toInt16 aCurrent))
      |> Serial_println (.text " mA")
    match d.DescriptionLCD with
    | none => e1
    | some _ => e1
      |> myLCD_setCursor 12 0
      |> myLCD_print (.text "        ")
      |> myLCD_setCursor 12 0
      |> myLCD_print (.dec (toInt16 aCurrent))
      |> myLCD_print (.text " mA")
  else e

/-- The function `printTemperature` (lines 501-507). -/
def printTemperature (d : SBMFunctionDescriptionStruct) (aTemperature : Nat) (e : Env) : Env :=
  if decide (aTemperature < sub16 d.lastValue 100) || decide (add16 d.lastValue 100 < aTemperature)
  then
    e |> Serial_print (.text d.Description)
      |> Serial_println (.celsius aTemperature)
  else e

/-- The string built in `printManufacturerDate`: a blank, then year, month and
day joined by dashes, each appended as a decimal `int`. -/
def dateAsString (aDate : Nat) : String :=
  let tDay := aDate &&& 0x1F
  let tMonth := (aDate >>> 5) &&& 0x0F
  let tYear := 1980 + ((aDate >>> 9) &&& 0x7F)
  " " ++ toString tYear ++ "-" ++ toString tMonth ++ "-" ++ toString tDay

/-- The function `printManufacturerDate` (lines 512-525). -/
def printManufacturerDate (d : SBMFunctionDescriptionStruct) (aDate : Nat) (e : Env) : Env :=
  e |> Serial_print (.text d.Description)
    |> Serial_println (.text (dateAsString aDate))

/-- The test `aValue & FLAG` of a flag mask. -/
def flagSet (aValue mask : Nat) : Bool := decide (aValue &&& mask ≠ 0)

/-- The function `printBatteryMode` (lines 527-557). -/
def printBatteryMode (H : SBMInfoH) (d : SBMFunctionDescriptionStruct) (aMode : Nat)
    (e : Env) : Env :=
  e |> Serial_print (.text d.Description)
    |> Serial_println (.bin aMode)
    |> onlyIf (flagSet aMode H.INTERNAL_CHARGE_CONTROLLER)
        (Serial_println (.text "- Internal Charge Controller Supported"))
    |> (fun x => if flagSet aMode H.CONDITION_FLAG
          then Serial_println (.text "- Conditioning Cycle Requested") x
          else Serial_println (.text "- Battery OK") x)
    |> onlyIf (flagSet aMode H.CHARGE_CONTROLLER)
        (Serial_println (.text "- Charge Controller Enabled"))
    |> onlyIf (flagSet aMode H.ALARM_MODE)
        (Serial_println
          (.text "- Disable AlarmWarning broadcast to Host and Smart Battery Charger"))
    |> onlyIf (flagSet aMode H.CHARGER_MODE)
        (Serial_println (.text
          "- Disable broadcasts of ChargingVoltage and ChargingCurrent to Smart Battery Charger"))
    |> onlyIf (flagSet aMode H.CAPACITY_MODE)
        (fun x => x
          |> setCapacityModePower
          |> Serial_println (.text "- Using power (10mWh) instead of current (mAh)"))

/-- The function `printBatteryStatus` (lines 558-599). -/
def printBatteryStatus (H : SBMInfoH) (d : SBMFunctionDescriptionStruct) (aStatus : Nat)
    (e : Env) : Env :=
  e |> Serial_print (.text d.Description)
    |> Serial_println (.bin aStatus)
    |> onlyIf (flagSet aStatus H.OVER_CHARGED_ALARM)
        (Serial_println (.text "- OVER_CHARGED_ALARM"))
    |> onlyIf (flagSet aStatus H.TERMINATE_CHARGE_ALARM)
        (Serial_println (.text "- TERMINATE_CHARGE_ALARM"))
    |> onlyIf (flagSet aStatus H.OVER_TEMP_ALARM)
        (Serial_println (.text "- OVER_TEMP_ALARM"))
    |> onlyIf (flagSet aStatus H.TERMINATE_DISCHARGE_ALARM)
        (Serial_println (.text "- TERMINATE_DISCHARGE_ALARM"))
    |> onlyIf (flagSet aStatus H.REMAINING_CAPACITY_ALARM)
        (Serial_println (.text "- REMAINING_CAPACITY_ALARM"))
    |> onlyIf (flagSet aStatus H.REMAINING_TIME_ALARM_FLAG)
        (Serial_println (.text "- REMAINING_TIME_ALARM_FLAG"))
    |> onlyIf (flagSet aStatus H.INITIALIZED)
        (Serial_println (.text "- Initialized"))
    |> onlyIf (flagSet aStatus H.DISCHARGING)
        (Serial_println (.text "- Discharging"))
    |> onlyIf (flagSet aStatus H.FULLY_CHARGED)
        (Serial_println (.text "- Fully Charged"))
    |> onlyIf (flagSet aStatus H.FULLY_DISCHARGED)
        (Serial_println (.text "- Fully Discharged"))

/-- The call through the function pointer `ValueFormatter`. -/
def callFormatter (H : SBMInfoH) : Formatter → SBMFunctionDescriptionStruct → Nat → Env → Env
  | .printBinary => printBinary
  | .printSigned => printSigned
  | .printCapacity => printCapacity H
  | .printPercentage => printPercentage
  | .printTime => printTime
  | .printBatteryMode => printBatteryMode H
  | .printBatteryStatus => printBatteryStatus H
  | .printManufacturerDate => printManufacturerDate
  | .printVoltage => printVoltage
  | .printCurrent => printCurrent
  | .printTemperature => printTemperature

/-! ## The change-detection engine -/

/-- The function `printValue` (lines 352-364): the raw print or the formatter,
then the unconditional store into `lastValue`.  `Serial.flush()` only waits
for the console and has no effect on the state. -/
def printValue (H : SBMInfoH) (d : SBMFunctionDescriptionStruct) (tActualValue : Nat)
    (e : Env) : SBMFunctionDescriptionStruct × Env :=
  match d.ValueFormatter with
  | none =>
    let e1 := e |> Serial_print (.text d.Description) |> Serial_println (.dec tActualValue)
    let d1 := { d with lastValue := tActualValue }
    ({ d1 with lastValue := tActualValue }, e1)
  | some f =>
    let e1 := callFormatter H f d tActualValue e
    ({ d with lastValue := tActualValue }, e1)

/-- The function `readWordAndPrint` (lines 370-390). -/
def readWordAndPrint (H : SBMInfoH) (d : SBMFunctionDescriptionStruct)
    (aOnlyPrintIfValueChanged : Bool) (e : Env) : SBMFunctionDescriptionStruct × Env :=
  let r1 := readWord d.FunctionCode e
  let tActualValue := toUInt16 r1.1
  if aOnlyPrintIfValueChanged then
    if tActualValue ≠ d.lastValue then
      let r2 := readWord d.FunctionCode (delay 33 r1.2)
      let tActualValue2 := toUInt16 r2.1
      if tActualValue2 ≠ d.lastValue then
        let r3 := readWord d.FunctionCode (delay 17 r2.2)
        let tActualValue3 := toUInt16 r3.1
        if tActualValue3 ≠ d.lastValue then
          printValue H d tActualValue r3.2
        else (d, r3.2)
      else (d, r2.2)
    else (d, r1.2)
  else
    printValue H d tActualValue r1.2

/-- The function `printFunctionDescriptionArray` (lines 601-607): the
descriptors of the array are polled in order.  Every caller passes the number
of elements of the array as the length. -/
def printFunctionDescriptionArray (H : SBMInfoH) :
    List SBMFunctionDescriptionStruct → Bool → Env → List SBMFunctionDescriptionStruct × Env
  | [], _, e => ([], e)
  | d :: rest, aOnlyPrintIfValueChanged, e =>
    let r := readWordAndPrint H d aOnlyPrintIfValueChanged e
    let rs := printFunctionDescriptionArray H rest aOnlyPrintIfValueChanged r.2
    (r.1 :: rs.1, rs.2)

/-! ## The non-standard group -/

/-- The sketch state: the environment, the support flag of the non-standard
group (`0 not initialized, 1 supported, > 1 not supported`), the descriptor
tables and the buffer of the block reads (a byte for every index). -/
structure Sketch where
  env : Env
  nonStandardInfoSupportedByPack : Int
  sSBMNonStandardFunctionDescriptionArray : List SBMFunctionDescriptionStruct
  sSBMStaticFunctionDescriptionArray : List SBMFunctionDescriptionStruct
  sSBMDynamicFunctionDescriptionArray : List SBMFunctionDescriptionStruct
  sSBMATRateFunctionDescriptionArray : List SBMFunctionDescriptionStruct
  sSBMbq20z70FunctionDescriptionArray : List SBMFunctionDescriptionStruct
  sI2CDataBuffer : Nat → Nat

/-- A descriptor as an aggregate initialiser of the source builds it: the
members left out are zero, so `lastValue` starts at 0. -/
def descriptor (code : Nat) (label : String) (f : Option Formatter) (lcd : Option String) :
    SBMFunctionDescriptionStruct where
  FunctionCode := code
  Description := label
  ValueFormatter := f
  DescriptionLCD := lcd
  lastValue := 0

/-- The initial value of `sSBMStaticFunctionDescriptionArray` (lines 81-94). -/
def initialStaticTable (H : SBMInfoH) : List SBMFunctionDescriptionStruct :=
  [ descriptor H.SERIAL_NUM "Serial Number: " none none,
    descriptor H.MFG_DATE "Manufacture Date (YYYY-MM-DD):" (some .printManufacturerDate) none,
    descriptor H.DESIGN_CAPACITY "Design Capacity: " (some .printCapacity) none,
    descriptor H.DESIGN_VOLTAGE "Design Voltage: " (some .printVoltage) none,
    descriptor H.CHARGING_CURRENT "Charging Current: " (some .printCurrent) none,
    descriptor H.CHARGING_VOLTAGE "Charging Voltage: " (some .printVoltage) none,
    descriptor H.SPEC_INFO "Specification Info: " none none,
    descriptor H.CYCLE_COUNT "Cycle Count: " none none,
    descriptor H.MAX_ERROR "Max Error of charge calculation (%): " none none,
    descriptor H.REMAINING_TIME_ALARM "RemainingTimeAlarm: " (some .printTime) none,
    descriptor H.REMAINING_CAPACITY_ALARM "Remaining Capacity Alarm: " (some .printCapacity) none,
    descriptor H.BATTERY_MODE "Battery Mode (BIN): 0b" (some .printBatteryMode) none,
    descriptor H.PACK_STATUS "Pack Status (BIN): " (some .printBinary) none ]

/-- The initial value of `sSBMDynamicFunctionDescriptionArray` (lines 96-108). -/
def initialDynamicTable (H : SBMInfoH) : List SBMFunctionDescriptionStruct :=
  [ descriptor H.FULL_CHARGE_CAPACITY "Full Charge Capacity: " (some .printCapacity) none,
    descriptor H.REMAINING_CAPACITY "Remaining Capacity: " (some .printCapacity)
      (some "Capacity "),
    descriptor H.RELATIVE_SOC "Relative Charge: " (some .printPercentage)
      (some " rel Charge "),
    descriptor H.ABSOLUTE_SOC "Absolute Charge(%): " none (some "% Abs Charge "),
    descriptor H.RUN_TIME_TO_EMPTY "Minutes remaining until empty: " (some .printTime) none,
    descriptor H.AVERAGE_TIME_TO_EMPTY "Average minutes remaining until empty: "
      (some .printTime) (some " min to Empty "),
    descriptor H.TIME_TO_FULL "Minutes remaining for full charge: " (some .printTime)
      (some " min to Full "),
    descriptor H.BATTERY_STATUS "Battery Status (BIN): 0b" (some .printBatteryStatus) none,
    descriptor H.VOLTAGE "Voltage: " (some .printVoltage) (some "Voltage: "),
    descriptor H.CURRENT "Current: " (some .printCurrent) (some "Current: "),
    descriptor H.AverageCurrent "Average Current of last minute: " (some .printCurrent) none,
    descriptor H.TEMPERATURE "Temperature: " (some .printTemperature) none ]

/-- The initial value of `sSBMATRateFunctionDescriptionArray` (lines 127-130). -/
def initialATRateTable (H : SBMInfoH) : List SBMFunctionDescriptionStruct :=
  [ descriptor H.AtRateTimeToFull "TimeToFull at rate: " (some .printTime) none,
    descriptor H.AtRateTimeToEmpty "TimeToEmpty at rate: " (some .printTime) none,
    descriptor H.AtRateOK "Can be delivered for 10 seconds at rate: " none none ]

/-- The initial value of `sSBMbq20z70FunctionDescriptionArray` (lines 132-135). -/
def initialBq20z70Table (H : SBMInfoH) : List SBMFunctionDescriptionStruct :=
  [ descriptor H.BQ20Z70_ChargingStatus "Charging Status: " (some .printBinary) none,
    descriptor H.BQ20Z70_OperationStatus "Operation Status: " (some .printBinary) none,
    descriptor H.BQ20Z70_PackVoltage "Pack Voltage: " (some .printVoltage) none ]

/-- The initial value of `sSBMNonStandardFunctionDescriptionArray` (lines
114-119).  The members left out of an initialiser are zero: no formatter, no
display label, and 0 in `lastValue`. -/
def initialNonStandardTable (H : SBMInfoH) : List SBMFunctionDescriptionStruct :=
  [ { FunctionCode := H.CELL1_VOLTAGE, Description := "Cell 1 Voltage: ",
      ValueFormatter := some .printVoltage, DescriptionLCD := none, lastValue := 0 },
    { FunctionCode := H.CELL2_VOLTAGE, Description := "Cell 2 Voltage: ",
      ValueFormatter := some .printVoltage, DescriptionLCD := none, lastValue := 0 },
    { FunctionCode := H.CELL3_VOLTAGE, Description := "Cell 3 Voltage: ",
      ValueFormatter := some .printVoltage, DescriptionLCD := none, lastValue := 0 },
    { FunctionCode := H.CELL4_VOLTAGE, Description := "Cell 4 Voltage: ",
      ValueFormatter := some .printVoltage, DescriptionLCD := none, lastValue := 0 },
    { FunctionCode := H.STATE_OF_HEALTH, Description := "State of Health: ",
      ValueFormatter := none, DescriptionLCD := none, lastValue := 0 } ]

/-- The sketch state at start-up: `nonStandardInfoSupportedByPack = 0` (line
113), the tables as initialised and the buffer zeroed. -/
def initialSketch (H : SBMInfoH) (e : Env) : Sketch where
  env := e
  nonStandardInfoSupportedByPack := 0
  sSBMNonStandardFunctionDescriptionArray := initialNonStandardTable H
  sSBMStaticFunctionDescriptionArray := initialStaticTable H
  sSBMDynamicFunctionDescriptionArray := initialDynamicTable H
  sSBMATRateFunctionDescriptionArray := initialATRateTable H
  sSBMbq20z70FunctionDescriptionArray := initialBq20z70Table H
  sI2CDataBuffer := fun _ => 0

/-- The function code of entry `i` of a table.  The tables of the sketch have
fixed sizes and every index used is inside them; the value 0 stands for an
index outside a shorter list. -/
def functionCodeAt (table : List SBMFunctionDescriptionStruct) (i : Nat) : Nat :=
  match table[i]? with
  | some d => d.FunctionCode
  | none => 0

/-- The call of `printFunctionDescriptionArray` on the non-standard table. -/
def printNonStandardTable (H : SBMInfoH) (aOnlyPrintIfValueChanged : Bool) (s : Sketch) :
    Sketch :=
  let r := printFunctionDescriptionArray H s.sSBMNonStandardFunctionDescriptionArray
    aOnlyPrintIfValueChanged s.env
  { s with env := r.2, sSBMNonStandardFunctionDescriptionArray := r.1 }

/-- The function `printSMBNonStandardInfo` (lines 727-743). -/
def printSMBNonStandardInfo (H : SBMInfoH) (aOnlyPrintIfValueChanged : Bool) (s : Sketch) :
    Sketch :=
  if s.nonStandardInfoSupportedByPack > 1 then s
  else if s.nonStandardInfoSupportedByPack = 0 then
    let r0 := readWord (functionCodeAt s.sSBMNonStandardFunctionDescriptionArray 0) s.env
    let tActualValue := toUInt16 r0.1
    let r1 := readWord (functionCodeAt s.sSBMNonStandardFunctionDescriptionArray 1) r0.2
    let tActualValue1 := toUInt16 r1.1
    if tActualValue = tActualValue1 then
      { s with env := r1.2, nonStandardInfoSupportedByPack := 2 }
    else
      printNonStandardTable H aOnlyPrintIfValueChanged { s with env := r1.2 }
  else
    printNonStandardTable H aOnlyPrintIfValueChanged s

/-! ## The reports of the session -/

def DATA_BUFFER_LENGTH : Nat := 32

def INDEX_OF_DESIGN_VOLTAGE : Nat := 3

/-- The assignment to `sDesignVoltage`. -/
def setDesignVoltage (v : Nat) (e : Env) : Env := { e with sDesignVoltage := v }

/-- The cached value of entry `i` of a table (0 for an index outside a
shorter list; the tables of the sketch have fixed sizes). -/
def lastValueAt (table : List SBMFunctionDescriptionStruct) (i : Nat) : Nat :=
  match table[i]? with
  | some d => d.lastValue
  | none => 0

/-- The buffer after the stores of a block read, in program order. -/
def storeAll (buf : Nat → Nat) (stores : List (Nat × Nat)) : Nat → Nat :=
  stores.foldl (fun b s => Function.update b s.1 s.2) buf

/-- The call `Serial.write(buffer, length)`. -/
def Serial_write (buf : Nat → Nat) (length : Nat) (e : Env) : Env :=
  Serial_print (.bytes ((List.range length).map buf)) e

/-- The loop of lines 626-629: every byte is printed in base 16, followed by
a blank. -/
def printHexBytes : List Nat → Env → Env
  | [], e => e
  | b :: bs, e => printHexBytes bs (e |> Serial_print (.hex b) |> Serial_print (.text " "))

/-- The block reads of `printSMBStaticInfo` (lines 610-635): chemistry,
manufacturer name, manufacturer data (also as hex bytes) and device name.
The result is the buffer and the state afterwards. -/
def printSMBStaticBlocks (H : SBMInfoH) (buf : Nat → Nat) (e : Env) : (Nat → Nat) × Env :=
  let b1 := readBlock H.CELL_CHEM DATA_BUFFER_LENGTH (Serial_print (.text "Chemistry: ") e)
  let buf1 := storeAll buf b1.stores
  let e1 := b1.env |> Serial_write buf1 b1.length |> Serial_println (.text "")
  let b2 := readBlock H.MFG_NAME DATA_BUFFER_LENGTH
    (Serial_print (.text "Manufacturer Name: ") e1)
  let buf2 := storeAll buf1 b2.stores
  let e2 := b2.env |> Serial_write buf2 b2.length |> Serial_println (.text "")
  let b3 := readBlock H.MANUFACTURER_DATA DATA_BUFFER_LENGTH
    (Serial_print (.text "Manufacturer Data: ") e2)
  let buf3 := storeAll buf2 b3.stores
  let e3 := b3.env |> Serial_write buf3 b3.length
    |> Serial_print (.text " - 0x")
    |> printHexBytes ((List.range b3.length).map buf3)
    |> Serial_println (.text "")
  let b4 := readBlock H.DEV_NAME DATA_BUFFER_LENGTH (Serial_print (.text "Device Name: ") e3)
  let buf4 := storeAll buf3 b4.stores
  let e4 := b4.env |> Serial_write buf4 b4.length |> Serial_println (.text "")
  (buf4, e4)

/-- The function `printSMBStaticInfo` (lines 609-641): the block reads, the
pass over the static table in unconditional mode, and then the capture of the
design voltage from the cache of the entry `INDEX_OF_DESIGN_VOLTAGE`. -/
def printSMBStaticInfo (H : SBMInfoH) (s : Sketch) : Sketch :=
  let b := printSMBStaticBlocks H s.sI2CDataBuffer s.env
  let r := printFunctionDescriptionArray H s.sSBMStaticFunctionDescriptionArray false b.2
  { s with
    env := setDesignVoltage (lastValueAt r.1 INDEX_OF_DESIGN_VOLTAGE) r.2
    sSBMStaticFunctionDescriptionArray := r.1
    sI2CDataBuffer := b.1 }

/-- The value printed for an `int` in base 16: the 32-bit pattern of the
sign-extended value. -/
def hexOfInt (i : Int) : Nat := (i % 4294967296).toNat

/-- The lines 661-667 and 670-676 of `printSMBManufacturerInfo`, which differ
in the name of the controller only: the name and the end of discharge voltage. -/
def printEndOfDischarge (H : SBMInfoH) (name : String) (e : Env) : Env :=
  let e1 := e |> Serial_print (.text "Controller IC identified by device type: ")
    |> Serial_println (.text name)
    |> Serial_print (.text "End of Discharge Voltage Level: ")
  let r := readWordFromManufacturerAccess H H.BQ2084_EDV_level e1
  r.2 |> Serial_print (.fixed (toUInt16 r.1) 1000 3)
    |> Serial_println (.text " V")
    |> Serial_newline

/-- The lines 700-723 of `printSMBManufacturerInfo`: the manufacturer status. -/
def printManufacturerStatus (H : SBMInfoH) (e : Env) : Env :=
  let r := readWordFromManufacturerAccess H H.BQ20Z70_Manufacturer_Status
    (Serial_print (.text "Manufacturer Status (BIN): 0b") e)
  let tStatus := (toUInt16 r.1 >>> 8) % 256
  let tState := tStatus &&& 0x0F
  let e1 := r.2 |> Serial_println (.bin tStatus)
    |> Serial_print (.text "- FET Status ")
    |> Serial_println (.dec (tStatus >>> 6 : Nat))
    |> Serial_print (.text "- State: 0b")
    |> Serial_println (.bin tState)
  if tState = 0x01 then Serial_println (.text " - Normal Discharge") e1
  else if tState = 0x05 then Serial_println (.text " - Charge") e1
  else if tState = 0x07 then Serial_println (.text " - Charge Termination") e1
  else if tState = 0x0C then Serial_println (.text " - Battery Failure") e1
  else if tState = 0x09 then
    let p := readWordFromManufacturerAccess H H.BQ20Z70_PFStatus
      (Serial_println (.text " - Permanent Failure") e1)
    p.2 |> Serial_print (.text " - PFStatus: 0b")
      |> Serial_println (.bin ((toUInt16 p.1 >>> 8) % 256))
  else if tState = 0x0F then Serial_println (.text " - Battery Pack removed") e1
  else e1

/-- The lines 691-694 of `printSMBManufacturerInfo`: the hardware version. -/
def printHardwareVersion (H : SBMInfoH) (e : Env) : Env :=
  let r := readWordFromManufacturerAccess H H.BQ20Z70_Hardware_Version
    (Serial_print (.text "Hardware Version: 0x") e)
  r.2 |> Serial_println (.hex (hexOfInt r.1)) |> Serial_newline

/-- The function `printSMBManufacturerInfo` (lines 643-725) on the
controller-specific table and the state; the result is the table and the
state afterwards. -/
def printSMBManufacturerTables (H : SBMInfoH) (bq : List SBMFunctionDescriptionStruct)
    (e : Env) : List SBMFunctionDescriptionStruct × Env :=
  let r1 := readWordFromManufacturerAccess H H.TI_Device_Type e
  let tType := toUInt16 r1.1
  let e1 := r1.2 |> Serial_print (.text "Device Type: ")
    |> Serial_print (.dec tType)
    |> Serial_print (.text " / 0x")
    |> Serial_println (.hex tType)
  let r2 := readWordFromManufacturerAccess H H.TI_Firmware_Version e1
  let tVersion := toUInt16 r2.1
  if tType ≠ tVersion then
    let e2 := r2.2 |> Serial_print (.text "Firmware Version: ")
      |> Serial_print (.hex ((tVersion >>> 8) % 256))
      |> Serial_print (.text ".")
      |> Serial_println (.hex (tVersion % 256))
    if tType = 2083 then
      (bq, printManufacturerStatus H (printEndOfDischarge H "bq2085" e2))
    else if tType = 2084 then
      (bq, printManufacturerStatus H (printEndOfDischarge H "bq2084" e2))
    else if tType = 0x700 then
      let p := printFunctionDescriptionArray H bq false
        (e2 |> Serial_print (.text "Controller IC identified by device type: ")
          |> Serial_println (.text "bq20z70, bq20z75, bq29330"))
      (p.1, printManufacturerStatus H (printHardwareVersion H p.2))
    else if tType = 0x451 then
      let p := printFunctionDescriptionArray H bq false
        (e2 |> Serial_print (.text "Controller IC identified by device type: ")
          |> Serial_println (.text "bq20z45-R1"))
      (p.1, printManufacturerStatus H (printHardwareVersion H p.2))
    else
      (bq, printManufacturerStatus H (printHardwareVersion H e2))
  else (bq, r2.2)

/-- The function `printSMBManufacturerInfo` on the sketch state. -/
def printSMBManufacturerInfo (H : SBMInfoH) (s : Sketch) : Sketch :=
  let r := printSMBManufacturerTables H s.sSBMbq20z70FunctionDescriptionArray s.env
  { s with env := r.2, sSBMbq20z70FunctionDescriptionArray := r.1 }

/-- The announcement of a rate in `printSMBATRateInfo` (lines 747-757 and
762-771): the text, the unit of the capacity mode and, in power mode, the
rate in mA.  The flag `undefined` says that the value printed in power mode
has no defined value in the source. -/
def printRate (H : SBMInfoH) (text : String) (tmA : Int) (undefined : Bool) (e : Env) : Env :=
  e |> Serial_print (.text text)
    |> Serial_print (.text (getCapacityModeUnit H e))
    |> onlyIf e.sCapacityModePower (fun x => x
        |> Serial_print (.text " | ")
        |> flagUndefinedIf undefined
        |> Serial_print (.dec tmA)
        |> Serial_print (.text H.StringCapacityModeCurrent))
    |> Serial_newline

/-- The function `printSMBATRateInfo` (lines 745-777) on the table and the
state: the rate 100 is written and the first descriptor polled, then the rate
-100 (65436 as a 16-bit word) is written and the other descriptors polled.
`tmA` is assigned only in power mode, by a division that is undefined for a
design voltage of 0; the model takes 0 where the source leaves it unassigned
and flags its use.  The array of the sketch has three entries; for an empty
list the model stops after the first announcement. -/
def printSMBATRateTables (H : SBMInfoH) (table : List SBMFunctionDescriptionStruct)
    (e : Env) : List SBMFunctionDescriptionStruct × Env :=
  let e1 := writeWord H.AtRate 100 e
  let tmA : Int := if e1.sCapacityModePower
    then Int.tdiv (100 * 10000) (e1.sDesignVoltage : Int) else 0
  let e2 := delay 20
    (printRate H "Setting AT rate to 100" tmA (decide (e1.sDesignVoltage = 0)) e1)
  match table with
  | [] => ([], e2)
  | d0 :: rest =>
    let r0 := readWordAndPrint H d0 false e2
    let e3 := writeWord H.AtRate 65436 r0.2
    let e4 := delay 20 (printRate H "Setting AT rate to -100" (-tmA)
      (!e1.sCapacityModePower || decide (e1.sDesignVoltage = 0)) e3)
    let rs := printFunctionDescriptionArray H rest false e4
    (r0.1 :: rs.1, rs.2)

/-- The function `printSMBATRateInfo` on the sketch state. -/
def printSMBATRateInfo (H : SBMInfoH) (s : Sketch) : Sketch :=
  let r := printSMBATRateTables H s.sSBMATRateFunctionDescriptionArray s.env
  { s with env := r.2, sSBMATRateFunctionDescriptionArray := r.1 }

/-- The pass over the dynamic table (lines 210 and 222). -/
def printDynamicInfo (H : SBMInfoH) (aOnlyPrintIfValueChanged : Bool) (s : Sketch) : Sketch :=
  let r := printFunctionDescriptionArray H s.sSBMDynamicFunctionDescriptionArray
    aOnlyPrintIfValueChanged s.env
  { s with env := r.2, sSBMDynamicFunctionDescriptionArray := r.1 }

/-- The function `loop` (lines 221-226). -/
def loop (H : SBMInfoH) (s : Sketch) : Sketch :=
  let s1 := printSMBNonStandardInfo H true (printDynamicInfo H true s)
  { s1 with env := delay 3000 s1.env }

/-- The operations of the session that work on the sketch state. -/
inductive Operation where
  | staticInfo
  | manufacturerInfo
  | atRateInfo
  | dynamicInfo (aOnlyPrintIfValueChanged : Bool)
  | nonStandardInfo (aOnlyPrintIfValueChanged : Bool)
  | loop
  | readWord (aFunction : Nat)
  | writeWord (aFunction aValue : Nat)
  deriving DecidableEq, Repr

/-- The effect of an operation on the sketch state. -/
def perform (H : SBMInfoH) : Operation → Sketch → Sketch
  | .staticInfo, s => printSMBStaticInfo H s
  | .manufacturerInfo, s => printSMBManufacturerInfo H s
  | .atRateInfo, s => printSMBATRateInfo H s
  | .dynamicInfo m, s => printDynamicInfo H m s
  | .nonStandardInfo m, s => printSMBNonStandardInfo H m s
  | .loop, s => loop H s
  | .readWord f, s => { s with env := (SBMInfo.readWord f s.env).2 }
  | .writeWord f v, s => { s with env := SBMInfo.writeWord f v s.env }

/-- A run of operations, one after the other. -/
def performAll (H : SBMInfoH) (ops : List Operation) (s : Sketch) : Sketch :=
  ops.foldl (fun st o => perform H o st) s

/-- The state in which entry `k` of a table is polled during a pass in
unconditional mode that starts in the state `e`: the state after the polls of
the entries before it. -/
def envBeforeEntry (H : SBMInfoH) (table : List SBMFunctionDescriptionStruct) (k : Nat)
    (e : Env) : Env :=
  (printFunctionDescriptionArray H (table.take k) false e).2

/-! ## Observations used in the statements -/

/-- The `k`-th 16-bit word the device will deliver from now on: the pair of
bytes a call of `readWord` combines, after `2 * k` earlier bytes. -/
def busWord (e : Env) (k : Nat) : Nat :=
  (e.rx (e.rxCount + 2 * k) % 256) ||| ((e.rx (e.rxCount + 2 * k + 1) % 256) <<< 8)

/-- The console output of one report of the value `v` for the descriptor `d`:
what `printValue` appends to the console. -/
def consoleReport (H : SBMInfoH) (d : SBMFunctionDescriptionStruct) (v : Nat) (e : Env) :
    List Out :=
  (printValue H d v { e with serial := [] }).2.serial

/-- The display output of one report of the value `v` for the descriptor `d`:
what `printValue` appends to the display trace. -/
def displayReport (H : SBMInfoH) (d : SBMFunctionDescriptionStruct) (v : Nat) (e : Env) :
    List LcdEvent :=
  (printValue H d v { e with lcd := [] }).2.lcd

/-- The decoders with a threshold of their own. -/
def selfThresholding (d : SBMFunctionDescriptionStruct) : Bool :=
  d.ValueFormatter = some .printVoltage || d.ValueFormatter = some .printCurrent
    || d.ValueFormatter = some .printTemperature

/-- The state after the first read of a poll of the descriptor `d`. -/
def afterFirstRead (d : SBMFunctionDescriptionStruct) (e : Env) : Env :=
  (readWord d.FunctionCode e).2

/-- The state after the first confirmation read of a poll. -/
def afterSecondRead (d : SBMFunctionDescriptionStruct) (e : Env) : Env :=
  (readWord d.FunctionCode (delay 33 (afterFirstRead d e))).2

/-- The state after the second confirmation read of a poll. -/
def afterThirdRead (d : SBMFunctionDescriptionStruct) (e : Env) : Env :=
  (readWord d.FunctionCode (delay 17 (afterSecondRead d e))).2

/-! ## Sample data for the worked instances -/

/-- Sample values for the constants of `SBMInfo.h`: function codes and flag
masks as in the Smart Battery Data Specification, and the unit strings. -/
def sampleH : SBMInfoH where
  StringCapacityModePower := "0 mW"
  StringCapacityModeCurrent := " mA"
  INTERNAL_CHARGE_CONTROLLER := 0x0001
  CONDITION_FLAG := 0x0080
  CHARGE_CONTROLLER := 0x0100
  ALARM_MODE := 0x2000
  CHARGER_MODE := 0x4000
  CAPACITY_MODE := 0x8000
  OVER_CHARGED_ALARM := 0x8000
  TERMINATE_CHARGE_ALARM := 0x4000
  OVER_TEMP_ALARM := 0x1000
  TERMINATE_DISCHARGE_ALARM := 0x0800
  REMAINING_CAPACITY_ALARM := 0x01
  REMAINING_TIME_ALARM_FLAG := 0x0100
  INITIALIZED := 0x0080
  DISCHARGING := 0x0040
  FULLY_CHARGED := 0x0020
  FULLY_DISCHARGED := 0x0010
  MANUFACTURER_ACCESS := 0x00
  CELL1_VOLTAGE := 0x3F
  CELL2_VOLTAGE := 0x3E
  CELL3_VOLTAGE := 0x3D
  CELL4_VOLTAGE := 0x3C
  STATE_OF_HEALTH := 0x4F
  SERIAL_NUM := 0x1C
  MFG_DATE := 0x1B
  DESIGN_CAPACITY := 0x18
  DESIGN_VOLTAGE := 0x19
  CHARGING_CURRENT := 0x14
  CHARGING_VOLTAGE := 0x15
  SPEC_INFO := 0x1A
  CYCLE_COUNT := 0x17
  MAX_ERROR := 0x0C
  REMAINING_TIME_ALARM := 0x02
  BATTERY_MODE := 0x03
  PACK_STATUS := 0x2F
  CELL_CHEM := 0x22
  MFG_NAME := 0x20
  MANUFACTURER_DATA := 0x23
  DEV_NAME := 0x21
  FULL_CHARGE_CAPACITY := 0x10
  REMAINING_CAPACITY := 0x0F
  RELATIVE_SOC := 0x0D
  ABSOLUTE_SOC := 0x0E
  RUN_TIME_TO_EMPTY := 0x11
  AVERAGE_TIME_TO_EMPTY := 0x12
  TIME_TO_FULL := 0x13
  BATTERY_STATUS := 0x16
  VOLTAGE := 0x09
  CURRENT := 0x0A
  AverageCurrent := 0x0B
  TEMPERATURE := 0x08
  AtRate := 0x04
  AtRateTimeToFull := 0x05
  AtRateTimeToEmpty := 0x06
  AtRateOK := 0x07
  BQ20Z70_ChargingStatus := 0x55
  BQ20Z70_OperationStatus := 0x54
  BQ20Z70_PackVoltage := 0x5A
  TI_Device_Type := 0x0001
  TI_Firmware_Version := 0x0002
  BQ2084_EDV_level := 0x0618
  BQ20Z70_Hardware_Version := 0x0003
  BQ20Z70_Manufacturer_Status := 0x0006
  BQ20Z70_PFStatus := 0x0053

/-- A state at start-up in which the device answers with the bytes `rx`. -/
def sampleEnv (rx : Nat → Nat) : Env where
  rx := rx
  rxCount := 0
  bus := []
  interruptsEnabled := true
  delayed := 0
  serial := []
  lcd := []
  sI2CDeviceAddress := 0x0B
  sCapacityModePower := false
  sDesignVoltage := 0
  undefinedBehaviour := false

/-- The bytes of a device that delivers the words of the list in order (low
byte first) and the word 0 afterwards. -/
def wordStream (ws : List Nat) (k : Nat) : Nat :=
  if k % 2 = 0 then ws.getD (k / 2) 0 % 256 else ws.getD (k / 2) 0 / 256 % 256

/-- The descriptor of the relative state of charge, with the value 50 cached. -/
def relativeCharge50 : SBMFunctionDescriptionStruct where
  FunctionCode := 0x0D
  Description := "Relative Charge: "
  ValueFormatter := some .printPercentage
  DescriptionLCD := some " rel Charge "
  lastValue := 50

/-- The descriptor of the pack voltage, with 4000 mV cached. -/
def voltage4000 : SBMFunctionDescriptionStruct where
  FunctionCode := 0x09
  Description := "Voltage: "
  ValueFormatter := some .printVoltage
  DescriptionLCD := some "Voltage: "
  lastValue := 4000

/-- The descriptor of the fourth cell voltage as the table defines it: no
display label, and 0 in the cache. -/
def cellVoltage0 : SBMFunctionDescriptionStruct where
  FunctionCode := 0x3C
  Description := "Cell 4 Voltage: "
  ValueFormatter := some .printVoltage
  DescriptionLCD := none
  lastValue := 0

/-- The descriptor of the current with the cached value `c`. -/
def currentCached (c : Nat) : SBMFunctionDescriptionStruct where
  FunctionCode := 0x0A
  Description := "Current: "
  ValueFormatter := some .printCurrent
  DescriptionLCD := some "Current: "
  lastValue := c

/-- The descriptor of the manufacture date. -/
def manufactureDate : SBMFunctionDescriptionStruct where
  FunctionCode := 0x1B
  Description := "Manufacture Date (YYYY-MM-DD):"
  ValueFormatter := some .printManufacturerDate
  DescriptionLCD := none
  lastValue := 0

/-- The descriptor of the design capacity. -/
def designCapacity : SBMFunctionDescriptionStruct where
  FunctionCode := 0x18
  Description := "Design Capacity: "
  ValueFormatter := some .printCapacity
  DescriptionLCD := none
  lastValue := 0

/-- A state in power mode with a design voltage of 3700 mV. -/
def powerModeEnv : Env :=
  { sampleEnv (wordStream []) with sCapacityModePower := true, sDesignVoltage := 3700 }

/-- A silent device: every word it delivers is 0. -/
def idleEnv : Env := sampleEnv (wordStream [])

/-- The state after `k` further bytes have been read with acknowledge. -/
def advance (k : Nat) (e : Env) : Env :=
  { e with rxCount := e.rxCount + k, bus := e.bus ++ List.replicate k (.read false) }

/-- A device that answers every read with the byte 40. -/
def env40 : Env := sampleEnv (fun _ => 40)

/-- A pack whose first two cell registers differ while it is polled at
start-up (seven words: the probe and the five descriptors) and read equal
in the next polling cycle. -/
def differingThenEqual : Env :=
  sampleEnv (wordStream [3700, 3701, 3700, 3701, 3702, 0, 95, 3700, 3700])

/-- A pack whose first two cell registers read equal at the first probe. -/
def equalCells : Env := sampleEnv (wordStream [3700, 3700])

/-- The part of the state no formatter writes: the bytes of the device, the
number of bytes read so far and the design voltage. -/
def busFrame (e : Env) : (Nat → Nat) × Nat × Nat := (e.rx, e.rxCount, e.sDesignVoltage)

/-- The condition under which the formatter of a self-thresholding descriptor
prints the reading `v`: the condition of `printTemperature` for the
temperature, that of `printVoltage` and `printCurrent` otherwise. -/
def ownThreshold (d : SBMFunctionDescriptionStruct) (v : Nat) : Bool :=
  match d.ValueFormatter with
  | some .printTemperature =>
    decide (v < sub16 d.lastValue 100) || decide (add16 d.lastValue 100 < v)
  | _ => changedByTwo d.lastValue v

/-- The part of the state the bus primitives do not write: the console, the
display, the capacity mode and the design voltage. -/
def outFrame (e : Env) : List Out × List LcdEvent × Bool × Nat :=
  (e.serial, e.lcd, e.sCapacityModePower, e.sDesignVoltage)

/-- The state in which entry `k` of the static table is polled during
`printSMBStaticInfo`: after the block reads and the polls of the entries
before it. -/
def staticEntryEnv (H : SBMInfoH) (s : Sketch) (k : Nat) : Env :=
  envBeforeEntry H s.sSBMStaticFunctionDescriptionArray k
    (printSMBStaticBlocks H s.sI2CDataBuffer s.env).2

/-- A pack that answers the four block reads with empty blocks and the static
table with the words of a pack in power mode: design capacity 4400, design
voltage 3700, remaining capacity alarm 440 and a battery mode word with the
capacity-mode flag (0x8000). -/
def powerModePack : Env :=
  sampleEnv (wordStream [0, 0, 0, 0, 1234, 20591, 4400, 3700, 2000, 4200, 49, 17, 1, 10,
    440, 0x8000, 0])

/-! ## Lemmas on machine integers -/

theorem toUInt16_toInt16 (n : Nat) : toUInt16 (toInt16 n) = n % 65536 := by
  unfold toUInt16 toInt16
  split_ifs <;> omega

theorem byte_or_shift_lt (a b : Nat) : (a % 256) ||| ((b % 256) <<< 8) < 65536 := by
  have ha : a % 256 < 2 ^ 16 := by omega
  have hb : (b % 256) <<< 8 < 2 ^ 16 := by
    rw [Nat.shiftLeft_eq]; omega
  exact Nat.or_lt_two_pow ha hb

theorem busWord_lt (e : Env) (k : Nat) : busWord e k < 65536 :=
  byte_or_shift_lt _ _

/-! ## Lemmas on `readWord` -/

theorem readWord_value (fc : Nat) (e : Env) : toUInt16 (readWord fc e).1 = busWord e 0 := by
  have h := byte_or_shift_lt (e.rx e.rxCount) (e.rx (e.rxCount + 1))
  simp only [readWord, i2c_read, i2c_start, i2c_write, i2c_rep_start, busEvent, cli,
    toUInt16_toInt16, busWord]
  simp only [Nat.mul_zero, Nat.add_zero]
  omega

@[simp]
theorem readWord_rx (fc : Nat) (e : Env) : (readWord fc e).2.rx = e.rx := rfl

@[simp]
theorem readWord_rxCount (fc : Nat) (e : Env) :
    (readWord fc e).2.rxCount = e.rxCount + 2 := rfl

@[simp]
theorem readWord_serial (fc : Nat) (e : Env) : (readWord fc e).2.serial = e.serial := rfl

@[simp]
theorem readWord_lcd (fc : Nat) (e : Env) : (readWord fc e).2.lcd = e.lcd := rfl

@[simp]
theorem readWord_mode (fc : Nat) (e : Env) :
    (readWord fc e).2.sCapacityModePower = e.sCapacityModePower := rfl

@[simp]
theorem readWord_designVoltage (fc : Nat) (e : Env) :
    (readWord fc e).2.sDesignVoltage = e.sDesignVoltage := rfl

@[simp]
theorem delay_rx (ms : Nat) (e : Env) : (delay ms e).rx = e.rx := rfl

@[simp]
theorem delay_rxCount (ms : Nat) (e : Env) : (delay ms e).rxCount = e.rxCount := rfl

@[simp]
theorem delay_serial (ms : Nat) (e : Env) : (delay ms e).serial = e.serial := rfl

@[simp]
theorem delay_lcd (ms : Nat) (e : Env) : (delay ms e).lcd = e.lcd := rfl

@[simp]
theorem delay_mode (ms : Nat) (e : Env) :
    (delay ms e).sCapacityModePower = e.sCapacityModePower := rfl

@[simp]
theorem delay_designVoltage (ms : Nat) (e : Env) :
    (delay ms e).sDesignVoltage = e.sDesignVoltage := rfl

theorem busWord_congr (e1 e2 : Env) (hrx : e1.rx = e2.rx) (j k : Nat)
    (hc : e1.rxCount = e2.rxCount + 2 * j) : busWord e1 k = busWord e2 (k + j) := by
  unfold busWord
  rw [hrx, hc]
  have h1 : e2.rxCount + 2 * j + 2 * k = e2.rxCount + 2 * (k + j) := by omega
  rw [h1]

/-! ## Lemmas on the output primitives -/

@[simp]
theorem Serial_print_serial (o : Out) (e : Env) :
    (Serial_print o e).serial = e.serial ++ [o] := rfl
@[simp]
theorem Serial_print_lcd (o : Out) (e : Env) : (Serial_print o e).lcd = e.lcd := rfl
@[simp]
theorem Serial_println_serial (o : Out) (e : Env) :
    (Serial_println o e).serial = e.serial ++ [o, .newline] := rfl
@[simp]
theorem Serial_println_lcd (o : Out) (e : Env) : (Serial_println o e).lcd = e.lcd := rfl
@[simp]
theorem Serial_newline_serial (e : Env) :
    (Serial_newline e).serial = e.serial ++ [.newline] := rfl
@[simp]
theorem Serial_newline_lcd (e : Env) : (Serial_newline e).lcd = e.lcd := rfl
@[simp]
theorem myLCD_setCursor_serial (c r : Nat) (e : Env) :
    (myLCD_setCursor c r e).serial = e.serial := rfl
@[simp]
theorem myLCD_setCursor_lcd (c r : Nat) (e : Env) :
    (myLCD_setCursor c r e).lcd = e.lcd ++ [.setCursor c r] := rfl
@[simp]
theorem myLCD_print_serial (o : Out) (e : Env) : (myLCD_print o e).serial = e.serial := rfl
@[simp]
theorem myLCD_print_lcd (o : Out) (e : Env) :
    (myLCD_print o e).lcd = e.lcd ++ [.print o] := rfl
@[simp]
theorem setCapacityModePower_serial (e : Env) :
    (setCapacityModePower e).serial = e.serial := rfl
@[simp]
theorem setCapacityModePower_lcd (e : Env) :
    (setCapacityModePower e).lcd = e.lcd := rfl
@[simp]
theorem flagUndefinedIf_serial (c : Bool) (e : Env) :
    (flagUndefinedIf c e).serial = e.serial := rfl
@[simp]
theorem flagUndefinedIf_lcd (c : Bool) (e : Env) :
    (flagUndefinedIf c e).lcd = e.lcd := rfl

@[simp]
theorem onlyIf_println_serial (c : Bool) (o : Out) (e : Env) :
    (onlyIf c (Serial_println o) e).serial = e.serial ++ (if c then [o, .newline] else []) := by
  cases c <;> simp [onlyIf]

@[simp]
theorem onlyIf_println_lcd (c : Bool) (o : Out) (e : Env) :
    (onlyIf c (Serial_println o) e).lcd = e.lcd := by
  cases c <;> simp [onlyIf]

@[simp]
theorem onlyIf_power_serial (c : Bool) (o : Out) (e : Env) :
    (onlyIf c (fun x => Serial_println o (setCapacityModePower x)) e).serial
      = e.serial ++ (if c then [o, .newline] else []) := by
  cases c <;> simp [onlyIf]

@[simp]
theorem onlyIf_power_lcd (c : Bool) (o : Out) (e : Env) :
    (onlyIf c (fun x => Serial_println o (setCapacityModePower x)) e).lcd = e.lcd := by
  cases c <;> simp [onlyIf]

/-! ## The formatters only append to the console and to the display -/

theorem printBinary_serial (d : SBMFunctionDescriptionStruct) (v : Nat)
    (e1 e2 : Env) :
    (printBinary d v e1).serial
      = e1.serial ++ (printBinary d v { e2 with serial := [] }).serial := by
  simp [printBinary]

theorem printBinary_nonempty (d : SBMFunctionDescriptionStruct) (v : Nat)
    (e : Env) : (printBinary d v { e with serial := [] }).serial ≠ [] := by
  simp [printBinary]

theorem printBinary_lcd (d : SBMFunctionDescriptionStruct) (v : Nat)
    (e1 e2 : Env) :
    (printBinary d v e1).lcd = e1.lcd ++ (printBinary d v { e2 with lcd := [] }).lcd := by
  simp [printBinary]

theorem printSigned_serial (d : SBMFunctionDescriptionStruct) (v : Nat)
    (e1 e2 : Env) :
    (printSigned d v e1).serial
      = e1.serial ++ (printSigned d v { e2 with serial := [] }).serial := by
  simp [printSigned]

theorem printSigned_nonempty (d : SBMFunctionDescriptionStruct) (v : Nat)
    (e : Env) : (printSigned d v { e with serial := [] }).serial ≠ [] := by
  simp [printSigned]

theorem printSigned_lcd (d : SBMFunctionDescriptionStruct) (v : Nat)
    (e1 e2 : Env) :
    (printSigned d v e1).lcd = e1.lcd ++ (printSigned d v { e2 with lcd := [] }).lcd := by
  simp [printSigned]

theorem printManufacturerDate_serial (d : SBMFunctionDescriptionStruct) (v : Nat)
    (e1 e2 : Env) :
    (printManufacturerDate d v e1).serial
      = e1.serial ++ (printManufacturerDate d v { e2 with serial := [] }).serial := by
  simp [printManufacturerDate]

theorem printManufacturerDate_nonempty (d : SBMFunctionDescriptionStruct) (v : Nat)
    (e : Env) : (printManufacturerDate d v { e with serial := [] }).serial ≠ [] := by
  simp [printManufacturerDate]

theorem printManufacturerDate_lcd (d : SBMFunctionDescriptionStruct) (v : Nat)
    (e1 e2 : Env) :
    (printManufacturerDate d v e1).lcd = e1.lcd ++ (printManufacturerDate d v { e2 with lcd := [] }).lcd := by
  simp [printManufacturerDate]

theorem printBatteryStatus_serial (H : SBMInfoH) (d : SBMFunctionDescriptionStruct) (v : Nat)
    (e1 e2 : Env) :
    (printBatteryStatus H d v e1).serial
      = e1.serial ++ (printBatteryStatus H d v { e2 with serial := [] }).serial := by
  simp [printBatteryStatus]

theorem printBatteryStatus_nonempty (H : SBMInfoH) (d : SBMFunctionDescriptionStruct) (v : Nat)
    (e : Env) : (printBatteryStatus H d v { e with serial := [] }).serial ≠ [] := by
  simp [printBatteryStatus]

theorem printBatteryStatus_lcd (H : SBMInfoH) (d : SBMFunctionDescriptionStruct) (v : Nat)
    (e1 e2 : Env) :
    (printBatteryStatus H d v e1).lcd = e1.lcd ++ (printBatteryStatus H d v { e2 with lcd := [] }).lcd := by
  simp [printBatteryStatus]

theorem printBatteryMode_serial (H : SBMInfoH) (d : SBMFunctionDescriptionStruct) (v : Nat)
    (e1 e2 : Env) :
    (printBatteryMode H d v e1).serial
      = e1.serial ++ (printBatteryMode H d v { e2 with serial := [] }).serial := by
  cases hc : flagSet v H.CONDITION_FLAG <;> simp [printBatteryMode, hc]

theorem printBatteryMode_nonempty (H : SBMInfoH) (d : SBMFunctionDescriptionStruct) (v : Nat)
    (e : Env) : (printBatteryMode H d v { e with serial := [] }).serial ≠ [] := by
  cases hc : flagSet v H.CONDITION_FLAG <;> simp [printBatteryMode, hc]

theorem printBatteryMode_lcd (H : SBMInfoH) (d : SBMFunctionDescriptionStruct) (v : Nat)
    (e1 e2 : Env) :
    (printBatteryMode H d v e1).lcd = e1.lcd ++ (printBatteryMode H d v { e2 with lcd := [] }).lcd := by
  cases hc : flagSet v H.CONDITION_FLAG <;> simp [printBatteryMode, hc]

theorem printCapacity_serial (H : SBMInfoH) (d : SBMFunctionDescriptionStruct) (v : Nat)
    (e1 e2 : Env) (hm : e1.sCapacityModePower = e2.sCapacityModePower)
    (hd : e1.sDesignVoltage = e2.sDesignVoltage) :
    (printCapacity H d v e1).serial
      = e1.serial ++ (printCapacity H d v { e2 with serial := [] }).serial := by
  unfold printCapacity
  cases d.DescriptionLCD <;> cases h : e1.sCapacityModePower <;>
    simp [onlyIf, h, ← hm, ← hd, getCapacityModeUnit]

theorem printCapacity_nonempty (H : SBMInfoH) (d : SBMFunctionDescriptionStruct) (v : Nat)
    (e : Env) : (printCapacity H d v { e with serial := [] }).serial ≠ [] := by
  unfold printCapacity
  cases d.DescriptionLCD <;> cases h : e.sCapacityModePower <;>
    simp [onlyIf, h, getCapacityModeUnit]

theorem printCapacity_lcd (H : SBMInfoH) (d : SBMFunctionDescriptionStruct) (v : Nat)
    (e1 e2 : Env) (hm : e1.sCapacityModePower = e2.sCapacityModePower)
    (hd : e1.sDesignVoltage = e2.sDesignVoltage) :
    (printCapacity H d v e1).lcd = e1.lcd ++ (printCapacity H d v { e2 with lcd := [] }).lcd := by
  unfold printCapacity
  cases d.DescriptionLCD <;> cases h : e1.sCapacityModePower <;>
    simp [onlyIf, h, ← hm, ← hd, getCapacityModeUnit]

theorem printPercentage_serial (d : SBMFunctionDescriptionStruct) (v : Nat)
    (e1 e2 : Env) :
    (printPercentage d v e1).serial
      = e1.serial ++ (printPercentage d v { e2 with serial := [] }).serial := by
  unfold printPercentage
  cases d.DescriptionLCD <;> simp

theorem printPercentage_nonempty (d : SBMFunctionDescriptionStruct) (v : Nat)
    (e : Env) : (printPercentage d v { e with serial := [] }).serial ≠ [] := by
  unfold printPercentage
  cases d.DescriptionLCD <;> simp

theorem printPercentage_lcd (d : SBMFunctionDescriptionStruct) (v : Nat)
    (e1 e2 : Env) :
    (printPercentage d v e1).lcd = e1.lcd ++ (printPercentage d v { e2 with lcd := [] }).lcd := by
  unfold printPercentage
  cases d.DescriptionLCD <;> simp

theorem printTime_serial (d : SBMFunctionDescriptionStruct) (v : Nat)
    (e1 e2 : Env) :
    (printTime d v e1).serial
      = e1.serial ++ (printTime d v { e2 with serial := [] }).serial := by
  unfold printTime
  cases d.DescriptionLCD <;> split_ifs <;> simp

theorem printTime_nonempty (d : SBMFunctionDescriptionStruct) (v : Nat)
    (e : Env) : (printTime d v { e with serial := [] }).serial ≠ [] := by
  unfold printTime
  cases d.DescriptionLCD <;> split_ifs <;> simp

theorem printTime_lcd (d : SBMFunctionDescriptionStruct) (v : Nat)
    (e1 e2 : Env) :
    (printTime d v e1).lcd = e1.lcd ++ (printTime d v { e2 with lcd := [] }).lcd := by
  unfold printTime
  cases d.DescriptionLCD <;> split_ifs <;> simp

theorem printVoltage_serial (d : SBMFunctionDescriptionStruct) (v : Nat)
    (e1 e2 : Env) :
    (printVoltage d v e1).serial
      = e1.serial ++ (printVoltage d v { e2 with serial := [] }).serial := by
  unfold printVoltage
  cases d.DescriptionLCD <;> split_ifs <;> simp

theorem printVoltage_lcd (d : SBMFunctionDescriptionStruct) (v : Nat)
    (e1 e2 : Env) :
    (printVoltage d v e1).lcd = e1.lcd ++ (printVoltage d v { e2 with lcd := [] }).lcd := by
  unfold printVoltage
  cases d.DescriptionLCD <;> split_ifs <;> simp

theorem printCurrent_serial (d : SBMFunctionDescriptionStruct) (v : Nat)
    (e1 e2 : Env) :
    (printCurrent d v e1).serial
      = e1.serial ++ (printCurrent d v { e2 with serial := [] }).serial := by
  unfold printCurrent
  cases d.DescriptionLCD <;> split_ifs <;> simp

theorem printCurrent_lcd (d : SBMFunctionDescriptionStruct) (v : Nat)
    (e1 e2 : Env) :
    (printCurrent d v e1).lcd = e1.lcd ++ (printCurrent d v { e2 with lcd := [] }).lcd := by
  unfold printCurrent
  cases d.DescriptionLCD <;> split_ifs <;> simp

theorem printTemperature_serial (d : SBMFunctionDescriptionStruct) (v : Nat)
    (e1 e2 : Env) :
    (printTemperature d v e1).serial
      = e1.serial ++ (printTemperature d v { e2 with serial := [] }).serial := by
  unfold printTemperature
  split_ifs <;> simp

theorem printTemperature_lcd (d : SBMFunctionDescriptionStruct) (v : Nat)
    (e1 e2 : Env) :
    (printTemperature d v e1).lcd = e1.lcd ++ (printTemperature d v { e2 with lcd := [] }).lcd := by
  unfold printTemperature
  split_ifs <;> simp

/-- Every formatter only appends to the console, and what it appends depends on
the state only through the capacity mode and the design voltage. -/
theorem callFormatter_serial (H : SBMInfoH) (f : Formatter) (d : SBMFunctionDescriptionStruct)
    (v : Nat) (e1 e2 : Env) (hm : e1.sCapacityModePower = e2.sCapacityModePower)
    (hd : e1.sDesignVoltage = e2.sDesignVoltage) :
    (callFormatter H f d v e1).serial
      = e1.serial ++ (callFormatter H f d v { e2 with serial := [] }).serial := by
  cases f
  · exact printBinary_serial d v e1 e2
  · exact printSigned_serial d v e1 e2
  · exact printCapacity_serial H d v e1 e2 hm hd
  · exact printPercentage_serial d v e1 e2
  · exact printTime_serial d v e1 e2
  · exact printBatteryMode_serial H d v e1 e2
  · exact printBatteryStatus_serial H d v e1 e2
  · exact printManufacturerDate_serial d v e1 e2
  · exact printVoltage_serial d v e1 e2
  · exact printCurrent_serial d v e1 e2
  · exact printTemperature_serial d v e1 e2

/-- Every formatter only appends to the display trace. -/
theorem callFormatter_lcd (H : SBMInfoH) (f : Formatter) (d : SBMFunctionDescriptionStruct)
    (v : Nat) (e1 e2 : Env) (hm : e1.sCapacityModePower = e2.sCapacityModePower)
    (hd : e1.sDesignVoltage = e2.sDesignVoltage) :
    (callFormatter H f d v e1).lcd
      = e1.lcd ++ (callFormatter H f d v { e2 with lcd := [] }).lcd := by
  cases f
  · exact printBinary_lcd d v e1 e2
  · exact printSigned_lcd d v e1 e2
  · exact printCapacity_lcd H d v e1 e2 hm hd
  · exact printPercentage_lcd d v e1 e2
  · exact printTime_lcd d v e1 e2
  · exact printBatteryMode_lcd H d v e1 e2
  · exact printBatteryStatus_lcd H d v e1 e2
  · exact printManufacturerDate_lcd d v e1 e2
  · exact printVoltage_lcd d v e1 e2
  · exact printCurrent_lcd d v e1 e2
  · exact printTemperature_lcd d v e1 e2

/-- A formatter without a threshold of its own always writes to the console. -/
theorem callFormatter_nonempty (H : SBMInfoH) (f : Formatter) (d : SBMFunctionDescriptionStruct)
    (v : Nat) (e : Env) (hv : f ≠ .printVoltage) (hc : f ≠ .printCurrent)
    (ht : f ≠ .printTemperature) :
    (callFormatter H f d v { e with serial := [] }).serial ≠ [] := by
  cases f
  · exact printBinary_nonempty d v e
  · exact printSigned_nonempty d v e
  · exact printCapacity_nonempty H d v e
  · exact printPercentage_nonempty d v e
  · exact printTime_nonempty d v e
  · exact printBatteryMode_nonempty H d v e
  · exact printBatteryStatus_nonempty H d v e
  · exact printManufacturerDate_nonempty d v e
  · exact absurd rfl hv
  · exact absurd rfl hc
  · exact absurd rfl ht

/-! ## Lemmas on `printValue` -/

theorem printValue_descriptor (H : SBMInfoH) (d : SBMFunctionDescriptionStruct) (v : Nat)
    (e : Env) : (printValue H d v e).1 = { d with lastValue := v } := by
  unfold printValue
  cases d.ValueFormatter <;> rfl

theorem printValue_serial (H : SBMInfoH) (d : SBMFunctionDescriptionStruct) (v : Nat)
    (e1 e2 : Env) (hm : e1.sCapacityModePower = e2.sCapacityModePower)
    (hd : e1.sDesignVoltage = e2.sDesignVoltage) :
    (printValue H d v e1).2.serial = e1.serial ++ consoleReport H d v e2 := by
  unfold consoleReport printValue
  cases d.ValueFormatter with
  | none => simp
  | some f => exact callFormatter_serial H f d v e1 e2 hm hd

theorem printValue_lcd (H : SBMInfoH) (d : SBMFunctionDescriptionStruct) (v : Nat)
    (e1 e2 : Env) (hm : e1.sCapacityModePower = e2.sCapacityModePower)
    (hd : e1.sDesignVoltage = e2.sDesignVoltage) :
    (printValue H d v e1).2.lcd = e1.lcd ++ displayReport H d v e2 := by
  unfold displayReport printValue
  cases d.ValueFormatter with
  | none => simp
  | some f => exact callFormatter_lcd H f d v e1 e2 hm hd

theorem consoleReport_raw (H : SBMInfoH) (d : SBMFunctionDescriptionStruct) (v : Nat)
    (e : Env) (h : d.ValueFormatter = none) :
    consoleReport H d v e = [.text d.Description, .dec v, .newline] := by
  unfold consoleReport printValue
  rw [h]
  simp

theorem consoleReport_ne_nil (H : SBMInfoH) (d : SBMFunctionDescriptionStruct) (v : Nat)
    (e : Env) (h : selfThresholding d = false) : consoleReport H d v e ≠ [] := by
  unfold consoleReport printValue
  unfold selfThresholding at h
  cases hf : d.ValueFormatter with
  | none => simp
  | some f =>
    rw [hf] at h
    simp only [Bool.or_eq_false_iff, decide_eq_false_iff_not, Option.some.injEq] at h
    exact callFormatter_nonempty H f d v e h.1.1 h.1.2 h.2

/-! ## Lemmas on `readWordAndPrint` -/

@[simp]
theorem busWord_delay (ms : Nat) (e : Env) (k : Nat) :
    busWord (delay ms e) k = busWord e k := rfl

@[simp]
theorem busWord_readWord (fc : Nat) (e : Env) (k : Nat) :
    busWord (readWord fc e).2 k = busWord e (k + 1) :=
  busWord_congr _ e (by simp) 1 k (by simp)

/-- The poll in only-report-changes mode, in terms of the words on the bus. -/
theorem readWordAndPrint_changes (H : SBMInfoH) (d : SBMFunctionDescriptionStruct) (e : Env) :
    readWordAndPrint H d true e =
      if busWord e 0 ≠ d.lastValue then
        if busWord e 1 ≠ d.lastValue then
          if busWord e 2 ≠ d.lastValue then printValue H d (busWord e 0) (afterThirdRead d e)
          else (d, afterThirdRead d e)
        else (d, afterSecondRead d e)
      else (d, afterFirstRead d e) := by
  simp only [readWordAndPrint, readWord_value, busWord_delay, busWord_readWord,
    afterFirstRead, afterSecondRead, afterThirdRead, if_true, Nat.zero_add, Nat.reduceAdd]

/-- The poll in unconditional mode, in terms of the words on the bus. -/
theorem readWordAndPrint_always (H : SBMInfoH) (d : SBMFunctionDescriptionStruct) (e : Env) :
    readWordAndPrint H d false e = printValue H d (busWord e 0) (afterFirstRead d e) := by
  simp [readWordAndPrint, readWord_value, afterFirstRead]

@[simp]
theorem afterFirstRead_serial (d : SBMFunctionDescriptionStruct) (e : Env) :
    (afterFirstRead d e).serial = e.serial := rfl
@[simp]
theorem afterFirstRead_lcd (d : SBMFunctionDescriptionStruct) (e : Env) :
    (afterFirstRead d e).lcd = e.lcd := rfl
@[simp]
theorem afterFirstRead_mode (d : SBMFunctionDescriptionStruct) (e : Env) :
    (afterFirstRead d e).sCapacityModePower = e.sCapacityModePower := rfl
@[simp]
theorem afterFirstRead_designVoltage (d : SBMFunctionDescriptionStruct) (e : Env) :
    (afterFirstRead d e).sDesignVoltage = e.sDesignVoltage := rfl
@[simp]
theorem afterFirstRead_rx (d : SBMFunctionDescriptionStruct) (e : Env) :
    (afterFirstRead d e).rx = e.rx := rfl
@[simp]
theorem afterFirstRead_rxCount (d : SBMFunctionDescriptionStruct) (e : Env) :
    (afterFirstRead d e).rxCount = e.rxCount + 2 := rfl
@[simp]
theorem afterSecondRead_serial (d : SBMFunctionDescriptionStruct) (e : Env) :
    (afterSecondRead d e).serial = e.serial := by simp [afterSecondRead]
@[simp]
theorem afterSecondRead_lcd (d : SBMFunctionDescriptionStruct) (e : Env) :
    (afterSecondRead d e).lcd = e.lcd := by simp [afterSecondRead]
@[simp]
theorem afterSecondRead_mode (d : SBMFunctionDescriptionStruct) (e : Env) :
    (afterSecondRead d e).sCapacityModePower = e.sCapacityModePower := by
  simp [afterSecondRead]
@[simp]
theorem afterSecondRead_designVoltage (d : SBMFunctionDescriptionStruct) (e : Env) :
    (afterSecondRead d e).sDesignVoltage = e.sDesignVoltage := by simp [afterSecondRead]
@[simp]
theorem afterSecondRead_rx (d : SBMFunctionDescriptionStruct) (e : Env) :
    (afterSecondRead d e).rx = e.rx := by simp [afterSecondRead]
@[simp]
theorem afterSecondRead_rxCount (d : SBMFunctionDescriptionStruct) (e : Env) :
    (afterSecondRead d e).rxCount = e.rxCount + 4 := by simp [afterSecondRead]
@[simp]
theorem afterThirdRead_serial (d : SBMFunctionDescriptionStruct) (e : Env) :
    (afterThirdRead d e).serial = e.serial := by simp [afterThirdRead]
@[simp]
theorem afterThirdRead_lcd (d : SBMFunctionDescriptionStruct) (e : Env) :
    (afterThirdRead d e).lcd = e.lcd := by simp [afterThirdRead]
@[simp]
theorem afterThirdRead_mode (d : SBMFunctionDescriptionStruct) (e : Env) :
    (afterThirdRead d e).sCapacityModePower = e.sCapacityModePower := by simp [afterThirdRead]
@[simp]
theorem afterThirdRead_designVoltage (d : SBMFunctionDescriptionStruct) (e : Env) :
    (afterThirdRead d e).sDesignVoltage = e.sDesignVoltage := by simp [afterThirdRead]
@[simp]
theorem afterThirdRead_rx (d : SBMFunctionDescriptionStruct) (e : Env) :
    (afterThirdRead d e).rx = e.rx := by simp [afterThirdRead]
@[simp]
theorem afterThirdRead_rxCount (d : SBMFunctionDescriptionStruct) (e : Env) :
    (afterThirdRead d e).rxCount = e.rxCount + 6 := by simp [afterThirdRead]

/-! ## The debounce -/

/-- A poll in only-report-changes mode that reads a changed value three times
makes one report of it. -/
theorem poll_of_confirmed_change (H : SBMInfoH) (d : SBMFunctionDescriptionStruct)
    (e e2 : Env) (B : Nat) (hm : e.sCapacityModePower = e2.sCapacityModePower)
    (hd : e.sDesignVoltage = e2.sDesignVoltage) (hAB : B ≠ d.lastValue)
    (h0 : busWord e 0 = B) (h1 : busWord e 1 = B) (h2 : busWord e 2 = B) :
    (readWordAndPrint H d true e).2.serial = e.serial ++ consoleReport H d B e2 ∧
    (readWordAndPrint H d true e).2.lcd = e.lcd ++ displayReport H d B e2 ∧
    (readWordAndPrint H d true e).1 = { d with lastValue := B } := by
  rw [readWordAndPrint_changes, h0, h1, h2]
  simp only [ne_eq, hAB, not_false_eq_true, if_true]
  refine ⟨?_, ?_, printValue_descriptor H d B _⟩
  · rw [printValue_serial H d B _ e2 (by simpa using hm) (by simpa using hd)]; simp
  · rw [printValue_lcd H d B _ e2 (by simpa using hm) (by simpa using hd)]; simp

/-- A poll in only-report-changes mode whose first reading is the cached value
changes neither sink nor the descriptor. -/
theorem poll_of_unchanged_value (H : SBMInfoH) (d : SBMFunctionDescriptionStruct) (e : Env)
    (h0 : busWord e 0 = d.lastValue) :
    readWordAndPrint H d true e = (d, afterFirstRead d e) := by
  rw [readWordAndPrint_changes, h0]
  simp

/-- C1. Debounce acceptance.  For a descriptor whose decoder is not voltage,
current or temperature, with the cached value `A` and `B ≠ A`: a poll in
only-report-changes mode whose three bus reads are `B, B, B` appends exactly
one report of `B` to the console (a non-empty one, for the raw decoder the
label, `B` and a line end), appends the display part of that report to the
display, and leaves `lastValue = B`.  For the reads `A, B, B, B` the first
poll reports nothing and keeps the cache, the second poll reports `B` once. -/
theorem debounce_acceptance (H : SBMInfoH) (d : SBMFunctionDescriptionStruct) (A B : Nat)
    (e e0 : Env) (hdec : selfThresholding d = false) (hA : d.lastValue = A) (hAB : B ≠ A)
    (h0 : busWord e 0 = B) (h1 : busWord e 1 = B) (h2 : busWord e 2 = B)
    (g0 : busWord e0 0 = A) (g1 : busWord e0 1 = B) (g2 : busWord e0 2 = B)
    (g3 : busWord e0 3 = B) :
    ((readWordAndPrint H d true e).2.serial = e.serial ++ consoleReport H d B e ∧
      (readWordAndPrint H d true e).2.lcd = e.lcd ++ displayReport H d B e ∧
      (readWordAndPrint H d true e).1.lastValue = B) ∧
    (consoleReport H d B e ≠ [] ∧
      (d.ValueFormatter = none →
        consoleReport H d B e = [.text d.Description, .dec B, .newline])) ∧
    ((readWordAndPrint H d true e0).2.serial = e0.serial ∧
      (readWordAndPrint H d true e0).2.lcd = e0.lcd ∧
      (readWordAndPrint H d true e0).1.lastValue = A) ∧
    ((readWordAndPrint H (readWordAndPrint H d true e0).1 true
          (readWordAndPrint H d true e0).2).2.serial = e0.serial ++ consoleReport H d B e0 ∧
      (readWordAndPrint H (readWordAndPrint H d true e0).1 true
          (readWordAndPrint H d true e0).2).2.lcd = e0.lcd ++ displayReport H d B e0 ∧
      (readWordAndPrint H (readWordAndPrint H d true e0).1 true
          (readWordAndPrint H d true e0).2).1.lastValue = B) := by
  subst hA
  have hp := poll_of_confirmed_change H d e e B rfl rfl hAB h0 h1 h2
  have hq := poll_of_unchanged_value H d e0 g0
  have hr := poll_of_confirmed_change H d (afterFirstRead d e0) e0 B rfl rfl hAB
    (by rw [afterFirstRead, busWord_readWord]; exact g1)
    (by rw [afterFirstRead, busWord_readWord]; exact g2)
    (by rw [afterFirstRead, busWord_readWord]; exact g3)
  refine ⟨⟨hp.1, hp.2.1, by rw [hp.2.2]⟩, ⟨consoleReport_ne_nil H d B e hdec,
    consoleReport_raw H d B e⟩, ?_, ?_⟩
  · rw [hq]; simp
  · rw [hq]
    exact ⟨by rw [hr.1]; simp, by rw [hr.2.1]; simp, by rw [hr.2.2]⟩

/-- An instance of `debounce_acceptance`: the relative charge with 50 cached and
a device that delivers 50, 51, 51, 51 (and 51, 51, 51 for the single poll). -/
theorem debounce_acceptance_witness :
    (selfThresholding relativeCharge50 = false ∧ relativeCharge50.lastValue = 50
      ∧ (51 : Nat) ≠ 50) ∧
    ((readWordAndPrint sampleH relativeCharge50 true
        (sampleEnv (wordStream [51, 51, 51]))).2.serial
      = [.text "Relative Charge: ", .dec 51, .text " %", .newline]) ∧
    ((readWordAndPrint sampleH relativeCharge50 true
        (sampleEnv (wordStream [50, 51, 51, 51]))).2.serial = []) :=
  have h := debounce_acceptance sampleH relativeCharge50 50 51
    (sampleEnv (wordStream [51, 51, 51])) (sampleEnv (wordStream [50, 51, 51, 51]))
    (by decide) (by decide) (by decide) (by decide) (by decide) (by decide)
    (by decide) (by decide) (by decide) (by decide)
  ⟨⟨by decide, by decide, by decide⟩, h.1.1, h.2.2.1.1⟩


/-- C2. Debounce noise rejection.  For every descriptor, in only-report-changes
mode: if the first read of a poll equals the cached value, or it differs but
the first or the second confirmation read equals the cached value, the poll
appends nothing to the console, nothing to the display, and returns the
descriptor unchanged (so `lastValue` is still the cached value). -/
theorem debounce_noise_rejection (H : SBMInfoH) (d : SBMFunctionDescriptionStruct) (e : Env)
    (h : busWord e 0 = d.lastValue ∨
      (busWord e 0 ≠ d.lastValue ∧ (busWord e 1 = d.lastValue ∨ busWord e 2 = d.lastValue))) :
    (readWordAndPrint H d true e).2.serial = e.serial ∧
    (readWordAndPrint H d true e).2.lcd = e.lcd ∧
    (readWordAndPrint H d true e).1 = d := by
  rw [readWordAndPrint_changes]
  rcases h with h | ⟨_, h | h⟩
  · simp [h]
  · split_ifs <;> simp_all
  · split_ifs <;> simp_all

/-- An instance of `debounce_noise_rejection`: 50 is cached, the device delivers
51 and then 50 again. -/
theorem debounce_noise_rejection_witness :
    (busWord (sampleEnv (wordStream [51, 50])) 0 ≠ relativeCharge50.lastValue ∧
      busWord (sampleEnv (wordStream [51, 50])) 1 = relativeCharge50.lastValue) ∧
    (readWordAndPrint sampleH relativeCharge50 true (sampleEnv (wordStream [51, 50]))).2.serial
      = [] ∧
    (readWordAndPrint sampleH relativeCharge50 true (sampleEnv (wordStream [51, 50]))).2.lcd
      = [] ∧
    (readWordAndPrint sampleH relativeCharge50 true (sampleEnv (wordStream [51, 50]))).1
      = relativeCharge50 :=
  ⟨⟨by decide, by decide⟩,
    debounce_noise_rejection sampleH relativeCharge50 (sampleEnv (wordStream [51, 50]))
      (Or.inr ⟨by decide, Or.inl (by decide)⟩)⟩

/-! ## The cache -/

/-- A poll of the voltage descriptor with 4000 cached that reads 4001 three
times writes nothing to the console and still stores 4001 in `lastValue`:
the cache invariant, stated for every decoder, fails for the voltage decoder. -/
theorem cache_invariant_voltage_counterexample :
    (readWordAndPrint sampleH voltage4000 true
        (sampleEnv (wordStream [4001, 4001, 4001]))).2.serial
      = (sampleEnv (wordStream [4001, 4001, 4001])).serial ∧
    (readWordAndPrint sampleH voltage4000 true
        (sampleEnv (wordStream [4001, 4001, 4001]))).1.lastValue = 4001 ∧
    voltage4000.lastValue = 4000 := by
  decide

/-- C3 (amended). Cache invariant for the decoders without a threshold of their
own.  For a descriptor whose decoder is not voltage, current or temperature,
in either mode: a poll that leaves the console unchanged leaves `lastValue`
unchanged; a poll that writes to the console appends exactly the report of the
first word read and leaves that word in `lastValue`. -/
theorem cache_changes_only_with_report (H : SBMInfoH) (d : SBMFunctionDescriptionStruct)
    (m : Bool) (e : Env) (hdec : selfThresholding d = false) :
    ((readWordAndPrint H d m e).2.serial = e.serial →
      (readWordAndPrint H d m e).1.lastValue = d.lastValue) ∧
    ((readWordAndPrint H d m e).2.serial ≠ e.serial →
      (readWordAndPrint H d m e).2.serial = e.serial ++ consoleReport H d (busWord e 0) e ∧
      (readWordAndPrint H d m e).1.lastValue = busWord e 0) := by
  have hne := consoleReport_ne_nil H d (busWord e 0) e hdec
  have key : ∀ e1 : Env, e1.serial = e.serial →
      e1.sCapacityModePower = e.sCapacityModePower → e1.sDesignVoltage = e.sDesignVoltage →
      ((printValue H d (busWord e 0) e1).2.serial = e.serial →
        (printValue H d (busWord e 0) e1).1.lastValue = d.lastValue) ∧
      ((printValue H d (busWord e 0) e1).2.serial ≠ e.serial →
        (printValue H d (busWord e 0) e1).2.serial
          = e.serial ++ consoleReport H d (busWord e 0) e ∧
        (printValue H d (busWord e 0) e1).1.lastValue = busWord e 0) := by
    intro e1 hs hm hd
    rw [printValue_serial H d _ e1 e hm hd, hs, printValue_descriptor]
    refine ⟨fun h => ?_, fun _ => ⟨rfl, rfl⟩⟩
    exact absurd (List.append_right_eq_self.mp h) hne
  cases m
  · rw [readWordAndPrint_always]
    exact key _ (by simp) (by simp) (by simp)
  · rw [readWordAndPrint_changes]
    split_ifs
    · exact key _ (by simp) (by simp) (by simp)
    · simp
    · simp
    · simp

/-- An instance of `cache_changes_only_with_report`: the cached value is read
again, nothing is written and the cache is kept. -/
theorem cache_changes_only_with_report_witness :
    selfThresholding relativeCharge50 = false ∧
    (readWordAndPrint sampleH relativeCharge50 true (sampleEnv (wordStream [50]))).1.lastValue
      = 50 :=
  ⟨by decide,
    (cache_changes_only_with_report sampleH relativeCharge50 true (sampleEnv (wordStream [50]))
      (by decide)).1 (by decide)⟩


/-! ## The thresholds of the voltage and current formatters -/

/-- Away from the ends of the 16-bit range the condition of `printVoltage` and
`printCurrent` is the strict threshold on the unsigned distance. -/
theorem changedByTwo_interior (c v : Nat) (hc1 : 1 ≤ c) (hc2 : c ≤ 65534) :
    changedByTwo c v = true ↔ (v + 1 < c ∨ c + 1 < v) := by
  unfold changedByTwo sub16 add16
  simp only [Bool.or_eq_true, decide_eq_true_eq]
  omega

/-- With 0 or 65535 in the cache the condition holds for every reading: one of
the two bounds wraps around. -/
theorem changedByTwo_at_the_ends (v : Nat) (hv : v < 65536) :
    changedByTwo 0 v = true ∧ changedByTwo 65535 v = true := by
  unfold changedByTwo sub16 add16
  simp only [Bool.or_eq_true, decide_eq_true_eq]
  omega

/-- The voltage formatter writes to the console exactly when its condition holds. -/
theorem printVoltage_reports_iff (d : SBMFunctionDescriptionStruct) (v : Nat) (e : Env) :
    (printVoltage d v e).serial ≠ e.serial ↔ changedByTwo d.lastValue v = true := by
  unfold printVoltage
  cases d.DescriptionLCD <;> split_ifs with h <;> simp [h]

/-- C4 (code defect). The voltage threshold at the failing inputs: with 0 in
the cache, `printVoltage` reports the reading 0 (no change at all) and the
reading 1 (a change of one), because `lastValue - 1` wraps to 65535.  Inside
the range the threshold is as claimed: with 4000 cached, 4001 gives no report
and 4002 gives one. -/
theorem printVoltage_reports_within_threshold :
    (printVoltage cellVoltage0 0 idleEnv).serial
      = [.text "Cell 4 Voltage: ", .fixed 0 1000 3, .text " Volt", .newline] ∧
    (printVoltage cellVoltage0 1 idleEnv).serial
      = [.text "Cell 4 Voltage: ", .fixed 1 1000 3, .text " Volt", .newline] ∧
    (printVoltage voltage4000 4001 idleEnv).serial = [] ∧
    (printVoltage voltage4000 4002 idleEnv).serial
      = [.text "Voltage: ", .fixed 4002 1000 3, .text " Volt", .newline] := by
  decide

/-- C5 (code defect). The current threshold at the failing inputs: the
comparison is made on the unsigned raw words.  With 0 mA cached the reading
-1 mA (raw 0xFFFF) is reported although it differs by one; with 32767 mA
cached the reading -32768 mA (raw 0x8000) is not reported although it differs
by 65535.  The reading -2 mA (raw 0xFFFE) against 0 mA is reported. -/
theorem printCurrent_compares_unsigned :
    (printCurrent (currentCached 0) 0xFFFF idleEnv).serial
      = [.text "Current: ", .dec (-1), .text " mA", .newline] ∧
    (printCurrent (currentCached 0x7FFF) 0x8000 idleEnv).serial = [] ∧
    (toInt16 0x7FFF = 32767 ∧ toInt16 0x8000 = -32768) ∧
    (printCurrent (currentCached 0) 0xFFFE idleEnv).serial
      = [.text "Current: ", .dec (-2), .text " mA", .newline] := by
  decide

/-! ## The capacity conversion -/

theorem derivedCapacity_eq (v dv : Nat) (hv : v < 65536) (hq : v * 10000 / dv ≤ 65535) :
    derivedCapacity v dv = v * 10000 / dv := by
  unfold derivedCapacity
  have h1 : toInt32 ((v : Int) * 10000) = ((v * 10000 : Nat) : Int) := by
    unfold toInt32
    push_cast
    split_ifs <;> omega
  rw [h1, ← Int.ofNat_tdiv]
  generalize v * 10000 / dv = q at hq ⊢
  have h2 : toInt32 (q : Int) = (q : Int) := by
    unfold toInt32
    split_ifs <;> omega
  rw [h2]
  unfold toUInt16
  omega

/-- C6. Capacity unit conversion.  In power mode, for a raw capacity `v` below
2^16 and a design voltage `dv ≠ 0` with `v * 10000 / dv ≤ 65535`, `printCapacity`
prints the raw value with the power unit and then the derived value
`v * 10000 / dv` (natural-number division, the product not reduced modulo 2^16)
with the current unit.  In current mode it prints the raw value with the
current unit and no derived value. -/
theorem printCapacity_conversion (H : SBMInfoH) (d : SBMFunctionDescriptionStruct) (v : Nat)
    (e : Env) (hv : v < 65536) :
    (e.sCapacityModePower = true → e.sDesignVoltage ≠ 0 →
      v * 10000 / e.sDesignVoltage ≤ 65535 →
      (printCapacity H d v e).serial = e.serial ++
        [.text d.Description, .dec v, .text H.StringCapacityModePower, .text "h",
          .text " | ", .dec ((v * 10000 / e.sDesignVoltage : Nat) : Int),
          .text H.StringCapacityModeCurrent, .text "h", .newline] ∧
      (printCapacity H d v e).undefinedBehaviour = e.undefinedBehaviour) ∧
    (e.sCapacityModePower = false →
      (printCapacity H d v e).serial = e.serial ++
        [.text d.Description, .dec v, .text H.StringCapacityModeCurrent, .text "h",
          .newline]) := by
  constructor
  · intro hm hdv hq
    have hder := derivedCapacity_eq v e.sDesignVoltage hv hq
    unfold printCapacity
    cases d.DescriptionLCD <;>
      simp [onlyIf, hm, hder, hdv, getCapacityModeUnit, flagUndefinedIf, Serial_newline,
        Serial_print, myLCD_print, myLCD_setCursor]
  · intro hm
    unfold printCapacity
    cases d.DescriptionLCD <;> simp [onlyIf, hm, getCapacityModeUnit]

/-- An instance of `printCapacity_conversion`: 500 units of 10 mWh at a design
voltage of 3700 mV are printed as 1351. -/
theorem printCapacity_conversion_witness :
    ((500 : Nat) < 65536 ∧ powerModeEnv.sCapacityModePower = true ∧
      powerModeEnv.sDesignVoltage ≠ 0 ∧ 500 * 10000 / powerModeEnv.sDesignVoltage ≤ 65535) ∧
    (printCapacity sampleH designCapacity 500 powerModeEnv).serial
      = [.text "Design Capacity: ", .dec 500, .text "0 mW", .text "h", .text " | ",
          .dec 1351, .text " mA", .text "h", .newline] :=
  ⟨⟨by decide, by decide, by decide, by decide⟩,
    ((printCapacity_conversion sampleH designCapacity 500 powerModeEnv (by decide)).1
      (by decide) (by decide) (by decide)).1⟩

/-! ## The manufacture date -/

/-- The fields of the packed date are the bit ranges 0-4, 5-8 and 9-15. -/
theorem dateAsString_fields (w : Nat) :
    dateAsString w = " " ++ toString (1980 + w / 512 % 128) ++ "-" ++ toString (w / 32 % 16)
      ++ "-" ++ toString (w % 32) := by
  have h5 : w &&& 0x1F = w % 32 := Nat.and_pow_two_sub_one_eq_mod w 5
  have h4 : (w >>> 5) &&& 0x0F = w / 32 % 16 := by
    rw [show (0x0F : Nat) = 2 ^ 4 - 1 from rfl, Nat.and_pow_two_sub_one_eq_mod,
      Nat.shiftRight_eq_div_pow]
  have h7 : (w >>> 9) &&& 0x7F = w / 512 % 128 := by
    rw [show (0x7F : Nat) = 2 ^ 7 - 1 from rfl, Nat.and_pow_two_sub_one_eq_mod,
      Nat.shiftRight_eq_div_pow]
  unfold dateAsString
  simp only [h5, h4, h7]

/-- C7 (code defect). The word packed from day 15, month 3 and year offset 40
is printed as a blank followed by `2020-3-15`: the year, month and day are the
claimed bit fields, but month and day are appended as plain decimals, not as
two digits. -/
theorem printManufacturerDate_not_padded :
    (40 * 512 + 3 * 32 + 15 = 20591) ∧
    (printManufacturerDate manufactureDate 20591 idleEnv).serial
      = [.text "Manufacture Date (YYYY-MM-DD):", .text " 2020-3-15", .newline] := by
  decide


/-! ## The block read -/

theorem advance_zero (e : Env) : advance 0 e = e := by
  cases e
  simp [advance]

theorem advance_succ (k : Nat) (e : Env) :
    advance k (i2c_read false e).2 = advance (k + 1) e := by
  cases e
  simp [advance, i2c_read, List.replicate_succ, Nat.add_assoc, Nat.add_comm 1 k]

/-- The loop of `readBlock` with `k` iterations left and enough fuel: it reads
`k` bytes and stores them at the indices from `i` on. -/
theorem readBlockLoop_run (k : Nat) : ∀ (fuel n i : Nat) (stores : List (Nat × Nat)) (e : Env),
    k ≤ fuel → (i + k + 1 = n ∨ (k = 0 ∧ n ≤ i + 1)) →
    readBlockLoop fuel n i stores e
      = (i + k, stores ++ (List.range k).map (fun j => (i + j, e.rx (e.rxCount + j) % 256)),
          advance k e) := by
  induction k with
  | zero =>
    intro fuel n i stores e _ h
    have hn : n ≤ i + 1 := by omega
    cases fuel with
    | zero => simp [readBlockLoop, advance_zero]
    | succ f =>
      have hc : ¬ ((i : Int) < (n : Int) - 1) := by omega
      simp [readBlockLoop, hc, advance_zero]
  | succ k ih =>
    intro fuel n i stores e hf h
    have hn : i + k + 2 = n := by omega
    cases fuel with
    | zero => omega
    | succ f =>
      have hc : (i : Int) < (n : Int) - 1 := by omega
      rw [readBlockLoop, if_pos hc]
      rw [ih f n (i + 1) _ (i2c_read false e).2 (by omega) (Or.inl (by omega)), advance_succ]
      refine Prod.ext (by simp; omega) (Prod.ext ?_ rfl)
      simp only [i2c_read, List.range_succ_eq_map, List.map_cons, List.map_map,
        List.append_assoc, List.singleton_append, Nat.add_zero]
      congr 2
      apply List.map_congr_left
      intro j _
      simp only [Function.comp, Nat.succ_eq_add_one]
      rw [show i + 1 + j = i + (j + 1) by omega,
        show e.rxCount + 1 + j = e.rxCount + (j + 1) by omega]

/-- The result of `readBlock` in terms of the clamped length `n`: the loop
stores `n - 1` bytes and the last byte is stored at index `n - 1`. -/
theorem readBlock_eq (aCommand C : Nat) (e : Env) (n : Nat)
    (hn : n = if e.rx e.rxCount % 256 > C % 256 then C % 256 else e.rx e.rxCount % 256) :
    (readBlock aCommand C e).length = n ∧
    (readBlock aCommand C e).env.rxCount = e.rxCount + 1 + (n - 1) + 1 ∧
    (readBlock aCommand C e).stores
      = (List.range (n - 1)).map (fun j => (j, e.rx (e.rxCount + 1 + j) % 256))
        ++ [(n - 1, e.rx (e.rxCount + 1 + (n - 1)) % 256)] := by
  have hlt : n ≤ 255 := by
    rw [hn]; split_ifs <;> omega
  generalize hE : (i2c_read false (i2c_rep_start ((e.sI2CDeviceAddress <<< 1) + I2C_READ)
    (i2c_write aCommand (i2c_start ((e.sI2CDeviceAddress <<< 1) + I2C_WRITE) (cli e))))) = r0
  have h1 : r0.1 = e.rx e.rxCount % 256 := by rw [← hE]; rfl
  have h2 : r0.2.rx = e.rx := by rw [← hE]; rfl
  have h3 : r0.2.rxCount = e.rxCount + 1 := by rw [← hE]; rfl
  have hl := readBlockLoop_run (n - 1) 256 n 0 [] r0.2 (by omega) (by omega)
  simp only [readBlock, hE, h1, ← hn, hl]
  simp [i2c_read, i2c_stop, busEvent, sei, advance, h2, h3]

/-- A device that announces a block of length 0: `readBlock` returns 0, but it
has read one data byte after the length byte and stored it at index 0.  The
claim of exactly `min(L, C)` data bytes and of stores below `min(L, C)` fails
at `L = 0`. -/
theorem readBlock_zero_length_counterexample :
    idleEnv.rx idleEnv.rxCount % 256 = 0 ∧
    (readBlock 0x22 32 idleEnv).length = 0 ∧
    (readBlock 0x22 32 idleEnv).env.rxCount = idleEnv.rxCount + 2 ∧
    (readBlock 0x22 32 idleEnv).stores = [(0, 0)] ∧
    ¬ ((readBlock 0x22 32 idleEnv).env.rxCount = idleEnv.rxCount + 1 + min 0 32 ∧
      ∀ s ∈ (readBlock 0x22 32 idleEnv).stores, s.1 < min 0 32) := by
  decide

/-- C8 (amended). Block read clamps the length.  For a buffer capacity `C` with
`1 ≤ C ≤ 255` and the length byte `L` sent by the device: `readBlock` returns
`min L C` and never stores at an index `≥ C`.  For `L ≥ 1` it reads exactly
`min L C` data bytes after the length byte and stores them, in order, at the
indices `0 .. min L C - 1`.  For `L = 0` it returns 0 and still reads one data
byte, which it stores at index 0. -/
theorem readBlock_clamps (aCommand C : Nat) (e : Env) (hC1 : 1 ≤ C) (hC2 : C ≤ 255) :
    (readBlock aCommand C e).length = min (e.rx e.rxCount % 256) C ∧
    (∀ s ∈ (readBlock aCommand C e).stores, s.1 < C) ∧
    (1 ≤ e.rx e.rxCount % 256 →
      (readBlock aCommand C e).env.rxCount = e.rxCount + 1 + min (e.rx e.rxCount % 256) C ∧
      (readBlock aCommand C e).stores
        = (List.range (min (e.rx e.rxCount % 256) C)).map
            (fun j => (j, e.rx (e.rxCount + 1 + j) % 256))) ∧
    (e.rx e.rxCount % 256 = 0 →
      (readBlock aCommand C e).env.rxCount = e.rxCount + 2 ∧
      (readBlock aCommand C e).stores = [(0, e.rx (e.rxCount + 1) % 256)]) := by
  have hmin : min (e.rx e.rxCount % 256) C
      = if e.rx e.rxCount % 256 > C % 256 then C % 256 else e.rx e.rxCount % 256 := by
    rw [Nat.mod_eq_of_lt (by omega : C < 256)]
    split_ifs <;> omega
  obtain ⟨h1, h2, h3⟩ := readBlock_eq aCommand C e _ hmin
  refine ⟨h1, ?_, ?_, ?_⟩
  · intro s hs
    rw [h3] at hs
    simp only [List.mem_append, List.mem_map, List.mem_range, List.mem_singleton] at hs
    rcases hs with ⟨j, hj, rfl⟩ | rfl
    · simp only; omega
    · simp only; omega
  · intro hL
    have hpos : 1 ≤ min (e.rx e.rxCount % 256) C := by omega
    refine ⟨by rw [h2]; omega, ?_⟩
    rw [h3]
    obtain ⟨k, hk⟩ : ∃ k, min (e.rx e.rxCount % 256) C = k + 1 := ⟨_, (Nat.sub_add_cancel hpos).symm⟩
    rw [hk]
    simp [List.range_succ]
  · intro hL
    have hz : min (e.rx e.rxCount % 256) C = 0 := by omega
    rw [h2, h3, hz]
    simp

/-- An instance of `readBlock_clamps`: the device announces 40 bytes, the buffer
holds 32; exactly 32 data bytes are read and stored at the indices 0 to 31. -/
theorem readBlock_clamps_witness :
    ((1 : Nat) ≤ 32 ∧ (32 : Nat) ≤ 255 ∧ 1 ≤ env40.rx env40.rxCount % 256) ∧
    (readBlock 0x20 32 env40).length = 32 ∧
    (readBlock 0x20 32 env40).env.rxCount = env40.rxCount + 1 + 32 ∧
    (readBlock 0x20 32 env40).stores = (List.range 32).map (fun j => (j, 40)) :=
  have h := readBlock_clamps 0x20 32 env40 (by decide) (by decide)
  ⟨⟨by decide, by decide, by decide⟩, h.1, (h.2.2.1 (by decide)).1, (h.2.2.1 (by decide)).2⟩


/-! ## The non-standard group -/

/-- A call of `printSMBNonStandardInfo` leaves the support flag as it was or
sets it to 2; it never records the value 1 (`supported`). -/
theorem supportFlag_kept_or_two (H : SBMInfoH) (m : Bool) (s : Sketch) :
    (printSMBNonStandardInfo H m s).nonStandardInfoSupportedByPack
        = s.nonStandardInfoSupportedByPack ∨
      (printSMBNonStandardInfo H m s).nonStandardInfoSupportedByPack = 2 := by
  simp only [printSMBNonStandardInfo, printNonStandardTable]
  split_ifs <;> simp

/-- In the state `not supported` a call returns at once. -/
theorem printSMBNonStandardInfo_unsupported (H : SBMInfoH) (m : Bool) (s : Sketch)
    (h : 1 < s.nonStandardInfoSupportedByPack) : printSMBNonStandardInfo H m s = s := by
  simp only [printSMBNonStandardInfo, gt_iff_lt, h, if_true]

/-- C9 (code defect). The probe is repeated.  At start-up the two probe reads
differ (3700 and 3701): after the call the flag is still 0, not 1, and seven
words have been read (the probe and the five descriptors).  The next call, in
only-report-changes mode, reads two more words, the probe again, finds them
equal and sets the flag to 2: the probe ran in both calls, and a pack found
to answer differently is then marked as not supported. -/
theorem nonStandard_probe_repeated :
    (initialSketch sampleH differingThenEqual).nonStandardInfoSupportedByPack = 0 ∧
    (busWord differingThenEqual 0 = 3700 ∧ busWord differingThenEqual 1 = 3701) ∧
    (printSMBNonStandardInfo sampleH false
        (initialSketch sampleH differingThenEqual)).nonStandardInfoSupportedByPack = 0 ∧
    (printSMBNonStandardInfo sampleH false
        (initialSketch sampleH differingThenEqual)).env.rxCount = 14 ∧
    (printSMBNonStandardInfo sampleH true (printSMBNonStandardInfo sampleH false
        (initialSketch sampleH differingThenEqual))).env.rxCount = 18 ∧
    (printSMBNonStandardInfo sampleH true (printSMBNonStandardInfo sampleH false
        (initialSketch sampleH differingThenEqual))).nonStandardInfoSupportedByPack = 2 := by
  decide

/-- C10. Unsupported short-circuit.  When the probe of a call in the unknown
state reads two equal words, the flag becomes 2, and every later call, in
either mode, in any environment (any bus contents and traces) and with any
table contents, returns the state it was given: no bus read, nothing on the
console or the display, no `lastValue` changed, and the flag still 2. -/
theorem unsupported_short_circuit (H : SBMInfoH) (b : Bool) (s : Sketch)
    (h0 : s.nonStandardInfoSupportedByPack = 0) (heq : busWord s.env 0 = busWord s.env 1) :
    (printSMBNonStandardInfo H b s).nonStandardInfoSupportedByPack = 2 ∧
    ∀ (m : Bool) (env2 : Env) (table2 : List SBMFunctionDescriptionStruct),
      printSMBNonStandardInfo H m
          { printSMBNonStandardInfo H b s with
            env := env2, sSBMNonStandardFunctionDescriptionArray := table2 }
        = { printSMBNonStandardInfo H b s with
            env := env2, sSBMNonStandardFunctionDescriptionArray := table2 } := by
  have hflag : (printSMBNonStandardInfo H b s).nonStandardInfoSupportedByPack = 2 := by
    unfold printSMBNonStandardInfo
    simp [h0, readWord_value, heq]
  refine ⟨hflag, fun m env2 table2 => ?_⟩
  apply printSMBNonStandardInfo_unsupported
  show (1 : Int) < (printSMBNonStandardInfo H b s).nonStandardInfoSupportedByPack
  rw [hflag]
  decide

/-- An instance of `unsupported_short_circuit`: both cell registers read 3700 at
the first probe; a later call on a bus that answers 40 changes nothing. -/
theorem unsupported_short_circuit_witness :
    ((initialSketch sampleH equalCells).nonStandardInfoSupportedByPack = 0 ∧
      busWord (initialSketch sampleH equalCells).env 0
        = busWord (initialSketch sampleH equalCells).env 1) ∧
    (printSMBNonStandardInfo sampleH false
        (initialSketch sampleH equalCells)).nonStandardInfoSupportedByPack = 2 ∧
    printSMBNonStandardInfo sampleH true
        { printSMBNonStandardInfo sampleH false (initialSketch sampleH equalCells) with
          env := env40, sSBMNonStandardFunctionDescriptionArray := initialNonStandardTable sampleH }
      = { printSMBNonStandardInfo sampleH false (initialSketch sampleH equalCells) with
          env := env40, sSBMNonStandardFunctionDescriptionArray := initialNonStandardTable sampleH } :=
  have h := unsupported_short_circuit sampleH false (initialSketch sampleH equalCells)
    (by decide) (by decide)
  ⟨⟨by decide, by decide⟩, h.1, h.2 true env40 (initialNonStandardTable sampleH)⟩


/-! ## The display -/

/-- A formatter called for a descriptor without a display label leaves the
display trace as it is. -/
theorem callFormatter_lcd_none (H : SBMInfoH) (f : Formatter) (d : SBMFunctionDescriptionStruct)
    (v : Nat) (e : Env) (h : d.DescriptionLCD = none) :
    (callFormatter H f d v e).lcd = e.lcd := by
  cases f
  · simp [callFormatter, printBinary]
  · simp [callFormatter, printSigned]
  · simp only [callFormatter, printCapacity, h]
    cases e.sCapacityModePower <;> simp [onlyIf]
  · simp [callFormatter, printPercentage, h]
  · simp only [callFormatter, printTime, h]
    split_ifs <;> simp
  · have := printBatteryMode_lcd H d v e e
    simp only [callFormatter]
    rw [this]
    cases hc : flagSet v H.CONDITION_FLAG <;> simp [printBatteryMode, hc]
  · simp [callFormatter, printBatteryStatus]
  · simp [callFormatter, printManufacturerDate]
  · simp only [callFormatter, printVoltage, h]
    split_ifs <;> simp
  · simp only [callFormatter, printCurrent, h]
    split_ifs <;> simp
  · simp only [callFormatter, printTemperature]
    split_ifs <;> simp

/-- C11. Display mirroring is opt-in.  For every descriptor without a display
label, whatever its decoder (none or any of the eleven formatters), for every
raw value, cached value and state: `printValue` appends nothing to the display
trace, and neither does a poll by `readWordAndPrint` in either mode; the trace
records every `setCursor` and `print` on the display. -/
theorem display_mirroring_opt_in (H : SBMInfoH) (d : SBMFunctionDescriptionStruct) (v : Nat)
    (m : Bool) (e : Env) (h : d.DescriptionLCD = none) :
    (printValue H d v e).2.lcd = e.lcd ∧ (readWordAndPrint H d m e).2.lcd = e.lcd := by
  have hp : ∀ (w : Nat) (x : Env), (printValue H d w x).2.lcd = x.lcd := by
    intro w x
    unfold printValue
    cases hf : d.ValueFormatter with
    | none => simp
    | some f => exact callFormatter_lcd_none H f d w x h
  refine ⟨hp v e, ?_⟩
  cases m
  · rw [readWordAndPrint_always, hp]; simp
  · rw [readWordAndPrint_changes]
    split_ifs
    · rw [hp]; simp
    · simp
    · simp
    · simp

/-- An instance of `display_mirroring_opt_in`: the design capacity has no
display label; printing 4400 and polling it leave the display untouched. -/
theorem display_mirroring_opt_in_witness :
    designCapacity.DescriptionLCD = none ∧
    (printValue sampleH designCapacity 4400 idleEnv).2.lcd = [] ∧
    (readWordAndPrint sampleH designCapacity false idleEnv).2.lcd = [] :=
  ⟨rfl, display_mirroring_opt_in sampleH designCapacity 4400 false idleEnv rfl⟩

/-! ## The interrupt flag -/

/-- The function `readWord` returns with the interrupt flag cleared, whatever
the state it was called in. -/
theorem readWord_interrupts (fc : Nat) (e : Env) :
    (readWord fc e).2.interruptsEnabled = false := rfl

/-- The function `writeWord` returns with the interrupt flag set. -/
theorem writeWord_interrupts (fc v : Nat) (e : Env) :
    (writeWord fc v e).interruptsEnabled = true := rfl

/-- The function `readWordFromManufacturerAccess` returns with the interrupt
flag set. -/
theorem readWordFromManufacturerAccess_interrupts (H : SBMInfoH) (c : Nat) (e : Env) :
    (readWordFromManufacturerAccess H c e).2.interruptsEnabled = true := rfl

/-- The function `readBlock` returns with the interrupt flag set. -/
theorem readBlock_interrupts (c C : Nat) (e : Env) :
    (readBlock c C e).env.interruptsEnabled = true := rfl

/-- C12 (code defect). Called with interrupts enabled, `readWord` returns with
interrupts disabled: its `sei()` stands after the `return`.  The three other
transactions, called in the same state, return with interrupts enabled. -/
theorem readWord_returns_with_interrupts_disabled :
    idleEnv.interruptsEnabled = true ∧
    (readWord 0x09 idleEnv).2.interruptsEnabled = false ∧
    (writeWord 0x04 100 idleEnv).interruptsEnabled = true ∧
    (readWordFromManufacturerAccess sampleH 0x0001 idleEnv).2.interruptsEnabled = true ∧
    (readBlock 0x22 32 idleEnv).env.interruptsEnabled = true := by
  decide


/-! ## What the formatters leave alone -/

@[simp]
theorem Serial_print_busFrame (o : Out) (e : Env) :
    busFrame (Serial_print o e) = busFrame e := rfl
@[simp]
theorem Serial_println_busFrame (o : Out) (e : Env) :
    busFrame (Serial_println o e) = busFrame e := rfl
@[simp]
theorem Serial_newline_busFrame (e : Env) : busFrame (Serial_newline e) = busFrame e := rfl
@[simp]
theorem myLCD_setCursor_busFrame (c r : Nat) (e : Env) :
    busFrame (myLCD_setCursor c r e) = busFrame e := rfl
@[simp]
theorem myLCD_print_busFrame (o : Out) (e : Env) :
    busFrame (myLCD_print o e) = busFrame e := rfl
@[simp]
theorem setCapacityModePower_busFrame (e : Env) :
    busFrame (setCapacityModePower e) = busFrame e := rfl
@[simp]
theorem flagUndefinedIf_busFrame (c : Bool) (e : Env) :
    busFrame (flagUndefinedIf c e) = busFrame e := rfl
@[simp]
theorem onlyIf_println_busFrame (c : Bool) (o : Out) (e : Env) :
    busFrame (onlyIf c (Serial_println o) e) = busFrame e := by
  cases c <;> simp [onlyIf]
@[simp]
theorem onlyIf_power_busFrame (c : Bool) (o : Out) (e : Env) :
    busFrame (onlyIf c (fun x => Serial_println o (setCapacityModePower x)) e) = busFrame e := by
  cases c <;> simp [onlyIf]

@[simp]
theorem Serial_print_mode (o : Out) (e : Env) :
    (Serial_print o e).sCapacityModePower = e.sCapacityModePower := rfl
@[simp]
theorem Serial_println_mode (o : Out) (e : Env) :
    (Serial_println o e).sCapacityModePower = e.sCapacityModePower := rfl
@[simp]
theorem Serial_newline_mode (e : Env) :
    (Serial_newline e).sCapacityModePower = e.sCapacityModePower := rfl
@[simp]
theorem myLCD_setCursor_mode (c r : Nat) (e : Env) :
    (myLCD_setCursor c r e).sCapacityModePower = e.sCapacityModePower := rfl
@[simp]
theorem myLCD_print_mode (o : Out) (e : Env) :
    (myLCD_print o e).sCapacityModePower = e.sCapacityModePower := rfl
@[simp]
theorem flagUndefinedIf_mode (c : Bool) (e : Env) :
    (flagUndefinedIf c e).sCapacityModePower = e.sCapacityModePower := rfl
@[simp]
theorem onlyIf_println_mode (c : Bool) (o : Out) (e : Env) :
    (onlyIf c (Serial_println o) e).sCapacityModePower = e.sCapacityModePower := by
  cases c <;> simp [onlyIf]
@[simp]
theorem onlyIf_power_mode (c : Bool) (o : Out) (e : Env) :
    (onlyIf c (fun x => Serial_println o (setCapacityModePower x)) e).sCapacityModePower
      = (e.sCapacityModePower || c) := by
  cases c <;> simp [onlyIf, setCapacityModePower]

/-- No formatter changes the bytes of the device, the read position or the
design voltage. -/
theorem callFormatter_busFrame (H : SBMInfoH) (f : Formatter) (d : SBMFunctionDescriptionStruct)
    (v : Nat) (e : Env) : busFrame (callFormatter H f d v e) = busFrame e := by
  cases f
  · simp [callFormatter, printBinary]
  · simp [callFormatter, printSigned]
  · simp only [callFormatter, printCapacity]
    cases d.DescriptionLCD <;> cases e.sCapacityModePower <;> simp [onlyIf]
  · simp only [callFormatter, printPercentage]
    cases d.DescriptionLCD <;> simp
  · simp only [callFormatter, printTime]
    cases d.DescriptionLCD <;> split_ifs <;> simp
  · cases hc : flagSet v H.CONDITION_FLAG <;> simp [callFormatter, printBatteryMode, hc]
  · simp [callFormatter, printBatteryStatus]
  · simp [callFormatter, printManufacturerDate]
  · simp only [callFormatter, printVoltage]
    cases d.DescriptionLCD <;> split_ifs <;> simp
  · simp only [callFormatter, printCurrent]
    cases d.DescriptionLCD <;> split_ifs <;> simp
  · simp only [callFormatter, printTemperature]
    split_ifs <;> simp

/-- The capacity mode after a formatter: it is switched to power by
`printBatteryMode` on a word with the capacity-mode flag, and kept otherwise. -/
theorem callFormatter_mode (H : SBMInfoH) (f : Formatter) (d : SBMFunctionDescriptionStruct)
    (v : Nat) (e : Env) : (callFormatter H f d v e).sCapacityModePower
      = (e.sCapacityModePower || (decide (f = .printBatteryMode) && flagSet v H.CAPACITY_MODE)) := by
  cases f
  · simp [callFormatter, printBinary]
  · simp [callFormatter, printSigned]
  · simp only [callFormatter, printCapacity]
    cases d.DescriptionLCD <;> cases h : e.sCapacityModePower <;> simp [onlyIf, h]
  · simp only [callFormatter, printPercentage]
    cases d.DescriptionLCD <;> simp
  · simp only [callFormatter, printTime]
    cases d.DescriptionLCD <;> split_ifs <;> simp
  · cases hc : flagSet v H.CONDITION_FLAG <;> simp [callFormatter, printBatteryMode, hc]
  · simp [callFormatter, printBatteryStatus]
  · simp [callFormatter, printManufacturerDate]
  · simp only [callFormatter, printVoltage]
    cases d.DescriptionLCD <;> split_ifs <;> simp
  · simp only [callFormatter, printCurrent]
    cases d.DescriptionLCD <;> split_ifs <;> simp
  · simp only [callFormatter, printTemperature]
    split_ifs <;> simp

theorem printValue_busFrame (H : SBMInfoH) (d : SBMFunctionDescriptionStruct) (v : Nat)
    (e : Env) : busFrame (printValue H d v e).2 = busFrame e := by
  unfold printValue
  cases d.ValueFormatter with
  | none => simp
  | some f => exact callFormatter_busFrame H f d v e

theorem printValue_mode (H : SBMInfoH) (d : SBMFunctionDescriptionStruct) (v : Nat)
    (e : Env) : (printValue H d v e).2.sCapacityModePower
      = (e.sCapacityModePower ||
          (decide (d.ValueFormatter = some .printBatteryMode) && flagSet v H.CAPACITY_MODE)) := by
  unfold printValue
  cases d.ValueFormatter with
  | none => simp
  | some f => simpa using callFormatter_mode H f d v e

theorem printValue_rxCount (H : SBMInfoH) (d : SBMFunctionDescriptionStruct) (v : Nat)
    (e : Env) : (printValue H d v e).2.rxCount = e.rxCount :=
  congrArg (fun p => p.2.1) (printValue_busFrame H d v e)

theorem printValue_rx (H : SBMInfoH) (d : SBMFunctionDescriptionStruct) (v : Nat)
    (e : Env) : (printValue H d v e).2.rx = e.rx :=
  congrArg (fun p => p.1) (printValue_busFrame H d v e)

theorem printValue_designVoltage (H : SBMInfoH) (d : SBMFunctionDescriptionStruct) (v : Nat)
    (e : Env) : (printValue H d v e).2.sDesignVoltage = e.sDesignVoltage :=
  congrArg (fun p => p.2.2) (printValue_busFrame H d v e)


/-! ## The self-thresholding decoders in the debounce -/

/-- The report of a self-thresholding descriptor is non-empty exactly when the
threshold of its formatter holds. -/
theorem consoleReport_selfThresholding (H : SBMInfoH) (d : SBMFunctionDescriptionStruct)
    (v : Nat) (e : Env) (hdec : selfThresholding d = true) :
    consoleReport H d v e ≠ [] ↔ ownThreshold d v = true := by
  unfold selfThresholding at hdec
  unfold consoleReport printValue ownThreshold
  cases hf : d.ValueFormatter with
  | none => rw [hf] at hdec; simp at hdec
  | some f =>
    rw [hf] at hdec
    cases f <;> simp at hdec
    · simp only [callFormatter, printVoltage]
      cases d.DescriptionLCD <;> split_ifs with h <;> simp [h]
    · simp only [callFormatter, printCurrent]
      cases d.DescriptionLCD <;> split_ifs with h <;> simp [h]
    · simp only [callFormatter, printTemperature]
      split_ifs with h <;> simp_all

/-- A poll of the voltage with 4000 cached: on the readings 4002, 4002, 4002 it
reads three words (six bytes), not one; on the readings 4002, 4000 it reports
nothing although the single reading 4002 passes the threshold against 4000. -/
theorem selfThresholding_debounced_counterexample :
    selfThresholding voltage4000 = true ∧
    (readWordAndPrint sampleH voltage4000 true
        (sampleEnv (wordStream [4002, 4002, 4002]))).2.rxCount = 6 ∧
    (readWordAndPrint sampleH voltage4000 true
        (sampleEnv (wordStream [4002, 4000]))).2.serial = [] ∧
    ownThreshold voltage4000 4002 = true := by
  decide

/-- C13 (amended). The self-thresholding decoders go through the generic
debounce.  For a descriptor whose decoder is voltage, current or temperature,
a poll in only-report-changes mode reads one word (two bytes) and reports
nothing when the reading equals `lastValue`; reads two words and reports
nothing when the first confirmation read equals `lastValue`; and otherwise
reads three words and writes to the console exactly when the third reading
differs from `lastValue` too and the first reading passes the threshold of
the formatter against `lastValue`. -/
theorem selfThresholding_polls_through_debounce (H : SBMInfoH)
    (d : SBMFunctionDescriptionStruct) (e : Env) (hdec : selfThresholding d = true) :
    (busWord e 0 = d.lastValue →
      (readWordAndPrint H d true e).2.rxCount = e.rxCount + 2 ∧
      (readWordAndPrint H d true e).2.serial = e.serial) ∧
    (busWord e 0 ≠ d.lastValue → busWord e 1 = d.lastValue →
      (readWordAndPrint H d true e).2.rxCount = e.rxCount + 4 ∧
      (readWordAndPrint H d true e).2.serial = e.serial) ∧
    (busWord e 0 ≠ d.lastValue → busWord e 1 ≠ d.lastValue →
      (readWordAndPrint H d true e).2.rxCount = e.rxCount + 6 ∧
      ((readWordAndPrint H d true e).2.serial ≠ e.serial ↔
        (busWord e 2 ≠ d.lastValue ∧ ownThreshold d (busWord e 0) = true))) := by
  rw [readWordAndPrint_changes]
  refine ⟨fun h0 => by simp [h0], fun h0 h1 => by simp [h0, h1], fun h0 h1 => ?_⟩
  simp only [ne_eq, h0, h1, not_false_eq_true, if_true]
  split_ifs with h2
  · simp [h2]
  · rw [printValue_rxCount, printValue_serial H d _ _ e (by simp) (by simp)]
    refine ⟨by simp, ?_⟩
    rw [← consoleReport_selfThresholding H d _ e hdec]
    simp [h2]

/-- An instance of `selfThresholding_polls_through_debounce`: the voltage with
4000 cached and the readings 4002, 4002, 4002 takes three word reads and is
reported. -/
theorem selfThresholding_polls_through_debounce_witness :
    selfThresholding voltage4000 = true ∧
    (readWordAndPrint sampleH voltage4000 true
        (sampleEnv (wordStream [4002, 4002, 4002]))).2.rxCount = 0 + 6 ∧
    (readWordAndPrint sampleH voltage4000 true
        (sampleEnv (wordStream [4002, 4002, 4002]))).2.serial ≠ [] :=
  have h := (selfThresholding_polls_through_debounce sampleH voltage4000
    (sampleEnv (wordStream [4002, 4002, 4002])) (by decide)).2.2 (by decide) (by decide)
  ⟨by decide, h.1, h.2.mpr ⟨by decide, by decide⟩⟩

/-! ## The value accepted by the debounce -/

/-- A poll of the voltage with 4000 cached that reads 4001, 5000 and 6000, all
different from 4000: nothing is reported, and 4001 is stored in `lastValue`. -/
theorem first_reading_not_reported_counterexample :
    (busWord (sampleEnv (wordStream [4001, 5000, 6000])) 0 ≠ voltage4000.lastValue ∧
      busWord (sampleEnv (wordStream [4001, 5000, 6000])) 1 ≠ voltage4000.lastValue ∧
      busWord (sampleEnv (wordStream [4001, 5000, 6000])) 2 ≠ voltage4000.lastValue) ∧
    (readWordAndPrint sampleH voltage4000 true
        (sampleEnv (wordStream [4001, 5000, 6000]))).2.serial = [] ∧
    (readWordAndPrint sampleH voltage4000 true
        (sampleEnv (wordStream [4001, 5000, 6000]))).1.lastValue = 4001 := by
  decide

/-- C14 (amended). The value accepted by the debounce is the first reading.
In only-report-changes mode, when the three readings `r1, r2, r3` of a poll
all differ from the cached value (whatever their relation to each other), the
poll hands `r1` to `printValue`: the console and the display receive the
report of `r1`, `lastValue` becomes `r1`, and `r2` and `r3` appear nowhere in
the result.  For a decoder other than voltage, current and temperature the
report of `r1` is non-empty; for those three it is what their threshold lets
through. -/
theorem debounce_accepts_first_reading (H : SBMInfoH) (d : SBMFunctionDescriptionStruct)
    (e : Env) (h1 : busWord e 0 ≠ d.lastValue) (h2 : busWord e 1 ≠ d.lastValue)
    (h3 : busWord e 2 ≠ d.lastValue) :
    (readWordAndPrint H d true e).1 = { d with lastValue := busWord e 0 } ∧
    (readWordAndPrint H d true e).2.serial = e.serial ++ consoleReport H d (busWord e 0) e ∧
    (readWordAndPrint H d true e).2.lcd = e.lcd ++ displayReport H d (busWord e 0) e ∧
    (selfThresholding d = false → consoleReport H d (busWord e 0) e ≠ []) := by
  rw [readWordAndPrint_changes]
  simp only [ne_eq, h1, h2, h3, not_false_eq_true, if_true]
  refine ⟨printValue_descriptor H d _ _, ?_, ?_, consoleReport_ne_nil H d _ e⟩
  · rw [printValue_serial H d _ _ e (by simp) (by simp)]; simp
  · rw [printValue_lcd H d _ _ e (by simp) (by simp)]; simp

/-- An instance of `debounce_accepts_first_reading`: 50 is cached and the device
delivers 51, 52, 53; the value 51 is reported and cached. -/
theorem debounce_accepts_first_reading_witness :
    (busWord (sampleEnv (wordStream [51, 52, 53])) 0 ≠ relativeCharge50.lastValue ∧
      busWord (sampleEnv (wordStream [51, 52, 53])) 1 ≠ relativeCharge50.lastValue ∧
      busWord (sampleEnv (wordStream [51, 52, 53])) 2 ≠ relativeCharge50.lastValue) ∧
    (readWordAndPrint sampleH relativeCharge50 true
        (sampleEnv (wordStream [51, 52, 53]))).1.lastValue = 51 ∧
    (readWordAndPrint sampleH relativeCharge50 true
        (sampleEnv (wordStream [51, 52, 53]))).2.serial
      = [.text "Relative Charge: ", .dec 51, .text " %", .newline] :=
  have h := debounce_accepts_first_reading sampleH relativeCharge50
    (sampleEnv (wordStream [51, 52, 53])) (by decide) (by decide) (by decide)
  ⟨⟨by decide, by decide, by decide⟩, by rw [h.1]; rfl, h.2.1⟩


/-! ## The capacity mode and the design voltage through the operations -/

@[simp]
theorem readWord_busFrame_designVoltage (fc : Nat) (e : Env) :
    (busFrame (readWord fc e).2).2.2 = e.sDesignVoltage := rfl

theorem writeWord_mode (fc v : Nat) (e : Env) :
    (writeWord fc v e).sCapacityModePower = e.sCapacityModePower := rfl

theorem writeWord_designVoltage (fc v : Nat) (e : Env) :
    (writeWord fc v e).sDesignVoltage = e.sDesignVoltage := rfl

@[simp]
theorem cli_outFrame (e : Env) : outFrame (cli e) = outFrame e := rfl
@[simp]
theorem sei_outFrame (e : Env) : outFrame (sei e) = outFrame e := rfl
@[simp]
theorem i2c_start_outFrame (a : Nat) (e : Env) : outFrame (i2c_start a e) = outFrame e := rfl
@[simp]
theorem i2c_rep_start_outFrame (a : Nat) (e : Env) :
    outFrame (i2c_rep_start a e) = outFrame e := rfl
@[simp]
theorem i2c_write_outFrame (b : Nat) (e : Env) : outFrame (i2c_write b e) = outFrame e := rfl
@[simp]
theorem i2c_stop_outFrame (e : Env) : outFrame (i2c_stop e) = outFrame e := rfl
@[simp]
theorem i2c_read_outFrame (l : Bool) (e : Env) :
    outFrame (i2c_read l e).2 = outFrame e := rfl

theorem readWordFromManufacturerAccess_outFrame (H : SBMInfoH) (c : Nat) (e : Env) :
    outFrame (readWordFromManufacturerAccess H c e).2 = outFrame e := by
  simp [readWordFromManufacturerAccess]

theorem readWordFromManufacturerAccess_mode (H : SBMInfoH) (c : Nat) (e : Env) :
    (readWordFromManufacturerAccess H c e).2.sCapacityModePower = e.sCapacityModePower :=
  congrArg (fun p => p.2.2.1) (readWordFromManufacturerAccess_outFrame H c e)

@[simp]
theorem Serial_print_designVoltage (o : Out) (e : Env) :
    (Serial_print o e).sDesignVoltage = e.sDesignVoltage := rfl
@[simp]
theorem Serial_println_designVoltage (o : Out) (e : Env) :
    (Serial_println o e).sDesignVoltage = e.sDesignVoltage := rfl
@[simp]
theorem Serial_newline_designVoltage (e : Env) :
    (Serial_newline e).sDesignVoltage = e.sDesignVoltage := rfl

/-- A block read changes neither the capacity mode nor the design voltage nor
the console. -/
theorem readBlock_env (aCommand C : Nat) (e : Env) :
    (readBlock aCommand C e).env.sCapacityModePower = e.sCapacityModePower ∧
    (readBlock aCommand C e).env.sDesignVoltage = e.sDesignVoltage ∧
    (readBlock aCommand C e).env.serial = e.serial := by
  generalize hn : (if e.rx e.rxCount % 256 > C % 256 then C % 256 else e.rx e.rxCount % 256) = n
  have hlt : n ≤ 255 := by
    rw [← hn]; split_ifs <;> omega
  generalize hE : (i2c_read false (i2c_rep_start ((e.sI2CDeviceAddress <<< 1) + I2C_READ)
    (i2c_write aCommand (i2c_start ((e.sI2CDeviceAddress <<< 1) + I2C_WRITE) (cli e))))) = r0
  have h1 : r0.1 = e.rx e.rxCount % 256 := by rw [← hE]; rfl
  have h2 : r0.2.sCapacityModePower = e.sCapacityModePower := by rw [← hE]; rfl
  have h3 : r0.2.sDesignVoltage = e.sDesignVoltage := by rw [← hE]; rfl
  have h4 : r0.2.serial = e.serial := by rw [← hE]; rfl
  have hl := readBlockLoop_run (n - 1) 256 n 0 [] r0.2 (by omega) (by omega)
  simp only [readBlock, hE, h1, hn, hl]
  simp [i2c_read, i2c_stop, busEvent, sei, advance, h2, h3, h4]

theorem printHexBytes_fields (l : List Nat) : ∀ e : Env,
    (printHexBytes l e).sCapacityModePower = e.sCapacityModePower ∧
    (printHexBytes l e).sDesignVoltage = e.sDesignVoltage ∧
    e.serial.length ≤ (printHexBytes l e).serial.length := by
  induction l with
  | nil => intro e; simp [printHexBytes]
  | cons b bs ih =>
    intro e
    obtain ⟨h1, h2, h3⟩ := ih (Serial_print (.text " ") (Serial_print (.hex b) e))
    simp only [printHexBytes]
    refine ⟨by rw [h1]; rfl, by rw [h2]; rfl, ?_⟩
    refine Nat.le_trans ?_ h3
    simp

/-- The block reads of the static report change neither the capacity mode nor
the design voltage. -/
theorem printSMBStaticBlocks_fields (H : SBMInfoH) (buf : Nat → Nat) (e : Env) :
    (printSMBStaticBlocks H buf e).2.sCapacityModePower = e.sCapacityModePower ∧
    (printSMBStaticBlocks H buf e).2.sDesignVoltage = e.sDesignVoltage := by
  simp only [printSMBStaticBlocks, Serial_write, Serial_println_mode, Serial_print_mode,
    Serial_println_designVoltage, Serial_print_designVoltage,
    (readBlock_env _ _ _).1, (readBlock_env _ _ _).2.1, (printHexBytes_fields _ _).1,
    (printHexBytes_fields _ _).2.1, and_self]

/-- A poll never changes the design voltage. -/
theorem readWordAndPrint_designVoltage (H : SBMInfoH) (d : SBMFunctionDescriptionStruct)
    (m : Bool) (e : Env) : (readWordAndPrint H d m e).2.sDesignVoltage = e.sDesignVoltage := by
  cases m
  · rw [readWordAndPrint_always, printValue_designVoltage]; simp
  · rw [readWordAndPrint_changes]
    split_ifs
    · rw [printValue_designVoltage]; simp
    · simp
    · simp
    · simp

/-- The capacity mode after a poll in unconditional mode. -/
theorem readWordAndPrint_always_mode (H : SBMInfoH) (d : SBMFunctionDescriptionStruct)
    (e : Env) : (readWordAndPrint H d false e).2.sCapacityModePower
      = (e.sCapacityModePower || (decide (d.ValueFormatter = some .printBatteryMode)
          && flagSet (busWord e 0) H.CAPACITY_MODE)) := by
  rw [readWordAndPrint_always, printValue_mode]; simp

/-- A poll of a descriptor other than the battery mode keeps the capacity mode. -/
theorem readWordAndPrint_mode_keep (H : SBMInfoH) (d : SBMFunctionDescriptionStruct)
    (m : Bool) (e : Env) (hd : d.ValueFormatter ≠ some .printBatteryMode) :
    (readWordAndPrint H d m e).2.sCapacityModePower = e.sCapacityModePower := by
  cases m
  · rw [readWordAndPrint_always, printValue_mode]; simp [hd]
  · rw [readWordAndPrint_changes]
    split_ifs
    · rw [printValue_mode]; simp [hd]
    · simp
    · simp
    · simp

/-- A poll never switches the capacity mode back from power. -/
theorem readWordAndPrint_mode_power (H : SBMInfoH) (d : SBMFunctionDescriptionStruct)
    (m : Bool) (e : Env) (hp : e.sCapacityModePower = true) :
    (readWordAndPrint H d m e).2.sCapacityModePower = true := by
  cases m
  · rw [readWordAndPrint_always, printValue_mode]; simp [hp]
  · rw [readWordAndPrint_changes]
    split_ifs
    · rw [printValue_mode]; simp [hp]
    · simpa using hp
    · simpa using hp
    · simpa using hp

/-- A poll only appends to the console. -/
theorem readWordAndPrint_serial_extends (H : SBMInfoH) (d : SBMFunctionDescriptionStruct)
    (m : Bool) (e : Env) : e.serial <+: (readWordAndPrint H d m e).2.serial := by
  cases m
  · rw [readWordAndPrint_always, printValue_serial H d _ _ e (by simp) (by simp)]
    simp
  · rw [readWordAndPrint_changes]
    split_ifs
    · rw [printValue_serial H d _ _ e (by simp) (by simp)]
      simp
    · simp
    · simp
    · simp

/-! ## Lemmas on `printFunctionDescriptionArray` -/

/-- A pass over two tables in a row is the pass over the first followed by the
pass over the second. -/
theorem printFunctionDescriptionArray_append (H : SBMInfoH)
    (l1 l2 : List SBMFunctionDescriptionStruct) (m : Bool) : ∀ e : Env,
    printFunctionDescriptionArray H (l1 ++ l2) m e
      = ((printFunctionDescriptionArray H l1 m e).1
            ++ (printFunctionDescriptionArray H l2 m (printFunctionDescriptionArray H l1 m e).2).1,
          (printFunctionDescriptionArray H l2 m (printFunctionDescriptionArray H l1 m e).2).2) := by
  induction l1 with
  | nil => intro e; simp [printFunctionDescriptionArray]
  | cons d rest ih =>
    intro e
    have h := ih (readWordAndPrint H d m e).2
    simp only [List.cons_append, printFunctionDescriptionArray, List.append_eq, h]

theorem printFunctionDescriptionArray_designVoltage (H : SBMInfoH)
    (l : List SBMFunctionDescriptionStruct) (m : Bool) : ∀ e : Env,
    (printFunctionDescriptionArray H l m e).2.sDesignVoltage = e.sDesignVoltage := by
  induction l with
  | nil => intro e; rfl
  | cons d rest ih =>
    intro e
    simp only [printFunctionDescriptionArray, ih, readWordAndPrint_designVoltage]

/-- A pass over descriptors other than the battery mode keeps the capacity mode. -/
theorem printFunctionDescriptionArray_mode_keep (H : SBMInfoH)
    (l : List SBMFunctionDescriptionStruct) (m : Bool) : ∀ e : Env,
    (∀ d ∈ l, d.ValueFormatter ≠ some .printBatteryMode) →
    (printFunctionDescriptionArray H l m e).2.sCapacityModePower = e.sCapacityModePower := by
  induction l with
  | nil => intro e _; rfl
  | cons d rest ih =>
    intro e h
    simp only [printFunctionDescriptionArray]
    rw [ih _ (fun x hx => h x (List.mem_cons_of_mem d hx)),
      readWordAndPrint_mode_keep H d m e (h d (List.mem_cons_self d rest))]

/-- A pass never switches the capacity mode back from power. -/
theorem printFunctionDescriptionArray_mode_power (H : SBMInfoH)
    (l : List SBMFunctionDescriptionStruct) (m : Bool) : ∀ e : Env,
    e.sCapacityModePower = true →
    (printFunctionDescriptionArray H l m e).2.sCapacityModePower = true := by
  induction l with
  | nil => intro e h; exact h
  | cons d rest ih =>
    intro e h
    simp only [printFunctionDescriptionArray]
    exact ih _ (readWordAndPrint_mode_power H d m e h)

/-- A pass only appends to the console. -/
theorem printFunctionDescriptionArray_serial_extends (H : SBMInfoH)
    (l : List SBMFunctionDescriptionStruct) (m : Bool) : ∀ e : Env,
    e.serial <+: (printFunctionDescriptionArray H l m e).2.serial := by
  induction l with
  | nil => intro e; exact List.prefix_refl _
  | cons d rest ih =>
    intro e
    simp only [printFunctionDescriptionArray]
    exact List.IsPrefix.trans (readWordAndPrint_serial_extends H d m e) (ih _)

/-! ## The capacity mode through the reports of the session -/

@[simp]
theorem setDesignVoltage_mode (v : Nat) (e : Env) :
    (setDesignVoltage v e).sCapacityModePower = e.sCapacityModePower := rfl

@[simp]
theorem setDesignVoltage_designVoltage (v : Nat) (e : Env) :
    (setDesignVoltage v e).sDesignVoltage = v := rfl

@[simp]
theorem setDesignVoltage_serial (v : Nat) (e : Env) :
    (setDesignVoltage v e).serial = e.serial := rfl

theorem printEndOfDischarge_mode (H : SBMInfoH) (name : String) (e : Env) :
    (printEndOfDischarge H name e).sCapacityModePower = e.sCapacityModePower := by
  simp [printEndOfDischarge, readWordFromManufacturerAccess_mode]

theorem printHardwareVersion_mode (H : SBMInfoH) (e : Env) :
    (printHardwareVersion H e).sCapacityModePower = e.sCapacityModePower := by
  simp [printHardwareVersion, readWordFromManufacturerAccess_mode]

theorem printManufacturerStatus_mode (H : SBMInfoH) (e : Env) :
    (printManufacturerStatus H e).sCapacityModePower = e.sCapacityModePower := by
  simp only [printManufacturerStatus]
  split_ifs <;> simp [readWordFromManufacturerAccess_mode]

theorem printSMBManufacturerTables_mode_power (H : SBMInfoH)
    (bq : List SBMFunctionDescriptionStruct) (e : Env) (hp : e.sCapacityModePower = true) :
    (printSMBManufacturerTables H bq e).2.sCapacityModePower = true := by
  unfold printSMBManufacturerTables
  generalize hr1 : readWordFromManufacturerAccess H H.TI_Device_Type e = r1
  have h1 : r1.2.sCapacityModePower = true := by
    rw [← hr1, readWordFromManufacturerAccess_mode]; exact hp
  simp only
  generalize hr2 : readWordFromManufacturerAccess H H.TI_Firmware_Version _ = r2
  have h2 : r2.2.sCapacityModePower = true := by
    rw [← hr2, readWordFromManufacturerAccess_mode]; simpa using h1
  have hs : ∀ x : Env, x.sCapacityModePower = true →
      (printManufacturerStatus H (printHardwareVersion H x)).sCapacityModePower = true := by
    intro x hx
    rw [printManufacturerStatus_mode, printHardwareVersion_mode]; exact hx
  split_ifs
  · rw [printManufacturerStatus_mode, printEndOfDischarge_mode]; simpa using h2
  · rw [printManufacturerStatus_mode, printEndOfDischarge_mode]; simpa using h2
  · exact hs _ (printFunctionDescriptionArray_mode_power H _ false _ (by simpa using h2))
  · exact hs _ (printFunctionDescriptionArray_mode_power H _ false _ (by simpa using h2))
  · exact hs _ (by simpa using h2)
  · exact h2

theorem printRate_mode (H : SBMInfoH) (text : String) (tmA : Int) (u : Bool) (e : Env) :
    (printRate H text tmA u e).sCapacityModePower = e.sCapacityModePower := by
  unfold printRate
  cases h : e.sCapacityModePower <;> simp [onlyIf, h]

theorem printSMBATRateTables_mode_power (H : SBMInfoH)
    (table : List SBMFunctionDescriptionStruct) (e : Env) (hp : e.sCapacityModePower = true) :
    (printSMBATRateTables H table e).2.sCapacityModePower = true := by
  unfold printSMBATRateTables
  cases table with
  | nil => simp [printRate_mode, writeWord_mode, hp]
  | cons d0 rest =>
    simp only
    apply printFunctionDescriptionArray_mode_power
    rw [delay_mode, printRate_mode, writeWord_mode]
    apply readWordAndPrint_mode_power
    rw [delay_mode, printRate_mode, writeWord_mode]
    exact hp

theorem printSMBNonStandardInfo_mode_power (H : SBMInfoH) (m : Bool) (s : Sketch)
    (hp : s.env.sCapacityModePower = true) :
    (printSMBNonStandardInfo H m s).env.sCapacityModePower = true := by
  simp only [printSMBNonStandardInfo, printNonStandardTable]
  split_ifs
  · exact hp
  · simpa using hp
  · exact printFunctionDescriptionArray_mode_power H _ m _ (by simpa using hp)
  · exact printFunctionDescriptionArray_mode_power H _ m _ hp

/-- No operation switches the capacity mode back from power. -/
theorem perform_mode_power (H : SBMInfoH) (o : Operation) (s : Sketch)
    (hp : s.env.sCapacityModePower = true) : (perform H o s).env.sCapacityModePower = true := by
  cases o with
  | staticInfo =>
    simp only [perform, printSMBStaticInfo, setDesignVoltage_mode]
    exact printFunctionDescriptionArray_mode_power H _ false _
      (by rw [(printSMBStaticBlocks_fields H _ _).1]; exact hp)
  | manufacturerInfo => exact printSMBManufacturerTables_mode_power H _ _ hp
  | atRateInfo => exact printSMBATRateTables_mode_power H _ _ hp
  | dynamicInfo m => exact printFunctionDescriptionArray_mode_power H _ m _ hp
  | nonStandardInfo m => exact printSMBNonStandardInfo_mode_power H m s hp
  | loop =>
    simp only [perform, loop]
    show (delay 3000 _).sCapacityModePower = true
    rw [delay_mode]
    exact printSMBNonStandardInfo_mode_power H true _
      (printFunctionDescriptionArray_mode_power H _ true _ hp)
  | readWord f => exact hp
  | writeWord f v => exact hp

/-- No run of operations switches the capacity mode back from power. -/
theorem performAll_mode_power (H : SBMInfoH) (ops : List Operation) : ∀ s : Sketch,
    s.env.sCapacityModePower = true → (performAll H ops s).env.sCapacityModePower = true := by
  induction ops with
  | nil => intro s h; exact h
  | cons o rest ih =>
    intro s h
    exact ih _ (perform_mode_power H o s h)

/-! ## The static report -/

theorem envBeforeEntry_succ (H : SBMInfoH) (table : List SBMFunctionDescriptionStruct)
    (k : Nat) (e : Env) (d : SBMFunctionDescriptionStruct) (h : table[k]? = some d) :
    envBeforeEntry H table (k + 1) e
      = (readWordAndPrint H d false (envBeforeEntry H table k e)).2 := by
  unfold envBeforeEntry
  rw [List.take_succ, h, printFunctionDescriptionArray_append]
  rfl

theorem envBeforeEntry_serial_extends (H : SBMInfoH) (table : List SBMFunctionDescriptionStruct)
    (k : Nat) (e : Env) : (envBeforeEntry H table k e).serial
      <+: (printFunctionDescriptionArray H table false e).2.serial := by
  unfold envBeforeEntry
  conv => rhs; rw [← List.take_append_drop k table, printFunctionDescriptionArray_append]
  exact printFunctionDescriptionArray_serial_extends H _ false _

theorem envBeforeEntry_length (H : SBMInfoH) (table : List SBMFunctionDescriptionStruct)
    (e : Env) : envBeforeEntry H table table.length e
      = (printFunctionDescriptionArray H table false e).2 := by
  unfold envBeforeEntry
  rw [List.take_length]

/-- After a pass in unconditional mode the cache of entry `k` holds the word
that was read for it. -/
theorem lastValueAt_after_pass (H : SBMInfoH) (table : List SBMFunctionDescriptionStruct) :
    ∀ (k : Nat) (e : Env), k < table.length →
      lastValueAt (printFunctionDescriptionArray H table false e).1 k
        = busWord (envBeforeEntry H table k e) 0 := by
  induction table with
  | nil => intro k e h; simp at h
  | cons d rest ih =>
    intro k e h
    cases k with
    | zero =>
      simp only [printFunctionDescriptionArray, lastValueAt, envBeforeEntry, List.take_zero,
        List.getElem?_cons_zero]
      rw [readWordAndPrint_always, printValue_descriptor]
    | succ j =>
      have hj := ih j (readWordAndPrint H d false e).2 (by simpa using h)
      simp only [printFunctionDescriptionArray, lastValueAt, envBeforeEntry, List.take_succ_cons,
        List.getElem?_cons_succ] at hj ⊢
      exact hj

/-- A poll of a capacity in unconditional mode while the capacity mode is
current: the raw value with the current unit, and no derived value. -/
theorem poll_capacity_in_current_mode (H : SBMInfoH) (d : SBMFunctionDescriptionStruct)
    (e : Env) (hf : d.ValueFormatter = some .printCapacity)
    (hm : e.sCapacityModePower = false) :
    (readWordAndPrint H d false e).2.serial = e.serial ++
      [.text d.Description, .dec (busWord e 0), .text H.StringCapacityModeCurrent, .text "h",
        .newline] := by
  rw [readWordAndPrint_always]
  unfold printValue
  rw [hf]
  simp only [callFormatter, printCapacity]
  cases d.DescriptionLCD <;> simp [onlyIf, hm, getCapacityModeUnit]

/-- The first eleven entries of the static table are polled before the battery
mode: none of them is decoded by `printBatteryMode`. -/
theorem initialStaticTable_before_batteryMode (H : SBMInfoH) (k : Nat) (hk : k ≤ 11) :
    ∀ d ∈ (initialStaticTable H).take k, d.ValueFormatter ≠ some .printBatteryMode := by
  intro d hd
  have h11 : d ∈ (initialStaticTable H).take 11 := by
    have : (initialStaticTable H).take k = ((initialStaticTable H).take 11).take k := by
      rw [List.take_take, Nat.min_eq_left hk]
    rw [this] at hd
    exact List.mem_of_mem_take hd
  simp only [initialStaticTable, descriptor, List.take_succ_cons, List.take_zero,
    List.mem_cons, List.mem_singleton, List.not_mem_nil, or_false] at h11
  rcases h11 with h | h | h | h | h | h | h | h | h | h | h <;> subst h <;> simp

/-- C15. Capacity mode is learned too late for the static section.  Run
`printSMBStaticInfo` on the static table as initialised, with the capacity
mode still current, for any answers of the device.  Every entry up to the
battery mode (indices 0 to 11) is polled with the capacity mode current and
the design voltage not yet captured.  The poll of the design capacity (index
2) and of the remaining capacity alarm (index 10) appends the label, the raw
word, the current unit and no derived value, and this output is part of the
console after the report.  Only afterwards is the capacity mode the flag of
the battery mode word and the design voltage the word read for index 3.  And
once the capacity mode is power, no run of operations makes it current again. -/
theorem static_capacities_in_current_mode (H : SBMInfoH) (s : Sketch)
    (hT : s.sSBMStaticFunctionDescriptionArray = initialStaticTable H)
    (hm : s.env.sCapacityModePower = false) :
    (∀ k, k ≤ 11 →
      (staticEntryEnv H s k).sCapacityModePower = false ∧
      (staticEntryEnv H s k).sDesignVoltage = s.env.sDesignVoltage) ∧
    ((staticEntryEnv H s 3).serial = (staticEntryEnv H s 2).serial ++
        [.text "Design Capacity: ", .dec (busWord (staticEntryEnv H s 2) 0),
          .text H.StringCapacityModeCurrent, .text "h", .newline] ∧
      (staticEntryEnv H s 3).serial <+: (printSMBStaticInfo H s).env.serial) ∧
    ((staticEntryEnv H s 11).serial = (staticEntryEnv H s 10).serial ++
        [.text "Remaining Capacity Alarm: ", .dec (busWord (staticEntryEnv H s 10) 0),
          .text H.StringCapacityModeCurrent, .text "h", .newline] ∧
      (staticEntryEnv H s 11).serial <+: (printSMBStaticInfo H s).env.serial) ∧
    ((printSMBStaticInfo H s).env.sCapacityModePower
        = flagSet (busWord (staticEntryEnv H s 11) 0) H.CAPACITY_MODE ∧
      (printSMBStaticInfo H s).env.sDesignVoltage = busWord (staticEntryEnv H s 3) 0) ∧
    (∀ (ops : List Operation) (s2 : Sketch), s2.env.sCapacityModePower = true →
      (performAll H ops s2).env.sCapacityModePower = true) := by
  have hblocks := printSMBStaticBlocks_fields H s.sI2CDataBuffer s.env
  have hbefore : ∀ k, k ≤ 11 →
      (staticEntryEnv H s k).sCapacityModePower = false ∧
      (staticEntryEnv H s k).sDesignVoltage = s.env.sDesignVoltage := by
    intro k hk
    unfold staticEntryEnv envBeforeEntry
    rw [hT, printFunctionDescriptionArray_designVoltage,
      printFunctionDescriptionArray_mode_keep H _ false _
        (initialStaticTable_before_batteryMode H k hk), hblocks.1, hblocks.2]
    exact ⟨hm, rfl⟩
  have hfinal : (printSMBStaticInfo H s).env.serial
      = (printFunctionDescriptionArray H (initialStaticTable H) false
          (printSMBStaticBlocks H s.sI2CDataBuffer s.env).2).2.serial := by
    simp only [printSMBStaticInfo, setDesignVoltage_serial, hT]
  have hpre : ∀ k, (staticEntryEnv H s k).serial <+: (printSMBStaticInfo H s).env.serial := by
    intro k
    rw [hfinal]
    unfold staticEntryEnv
    rw [hT]
    exact envBeforeEntry_serial_extends H _ k _
  have hstep : ∀ k d, (initialStaticTable H)[k]? = some d →
      staticEntryEnv H s (k + 1) = (readWordAndPrint H d false (staticEntryEnv H s k)).2 := by
    intro k d h
    unfold staticEntryEnv
    rw [hT]
    exact envBeforeEntry_succ H _ k _ d h
  refine ⟨hbefore, ⟨?_, hpre 3⟩, ⟨?_, hpre 11⟩, ⟨?_, ?_⟩, fun ops s2 h =>
    performAll_mode_power H ops s2 h⟩
  · rw [hstep 2 (descriptor H.DESIGN_CAPACITY "Design Capacity: " (some .printCapacity) none)
      rfl]
    exact poll_capacity_in_current_mode H _ _ rfl (hbefore 2 (by decide)).1
  · rw [hstep 10 (descriptor H.REMAINING_CAPACITY_ALARM "Remaining Capacity Alarm: "
      (some .printCapacity) none) rfl]
    exact poll_capacity_in_current_mode H _ _ rfl (hbefore 10 (by decide)).1
  · have h13 : (printSMBStaticInfo H s).env.sCapacityModePower
        = (staticEntryEnv H s 13).sCapacityModePower := by
      simp only [printSMBStaticInfo, setDesignVoltage_mode, staticEntryEnv, hT]
      rw [← envBeforeEntry_length]
      rfl
    rw [h13,
      hstep 12 (descriptor H.PACK_STATUS "Pack Status (BIN): " (some .printBinary) none) rfl,
      readWordAndPrint_mode_keep H _ false _ (by simp [descriptor]),
      hstep 11 (descriptor H.BATTERY_MODE "Battery Mode (BIN): 0b" (some .printBatteryMode)
        none) rfl,
      readWordAndPrint_always_mode, (hbefore 11 (by decide)).1]
    simp [descriptor]
  · have h3 := lastValueAt_after_pass H (initialStaticTable H) 3
      (printSMBStaticBlocks H s.sI2CDataBuffer s.env).2 (by simp [initialStaticTable])
    simp only [printSMBStaticInfo, setDesignVoltage_designVoltage, hT, INDEX_OF_DESIGN_VOLTAGE,
      staticEntryEnv]
    exact h3

/-- An instance of `static_capacities_in_current_mode`: a pack in power mode
(battery mode word 0x8000, design voltage 3700).  The design capacity 4400 is
printed with the current unit and without a derived value; after the report
the capacity mode is power and the design voltage is 3700. -/
theorem static_capacities_in_current_mode_witness :
    ((initialSketch sampleH powerModePack).sSBMStaticFunctionDescriptionArray
        = initialStaticTable sampleH ∧
      (initialSketch sampleH powerModePack).env.sCapacityModePower = false) ∧
    (busWord (staticEntryEnv sampleH (initialSketch sampleH powerModePack) 2) 0 = 4400 ∧
      busWord (staticEntryEnv sampleH (initialSketch sampleH powerModePack) 11) 0 = 0x8000) ∧
    (staticEntryEnv sampleH (initialSketch sampleH powerModePack) 3).serial
      = (staticEntryEnv sampleH (initialSketch sampleH powerModePack) 2).serial ++
        [.text "Design Capacity: ",
          .dec (busWord (staticEntryEnv sampleH (initialSketch sampleH powerModePack) 2) 0),
          .text " mA", .text "h", .newline] ∧
    ((printSMBStaticInfo sampleH (initialSketch sampleH powerModePack)).env.sCapacityModePower
        = true ∧
      (printSMBStaticInfo sampleH (initialSketch sampleH powerModePack)).env.sDesignVoltage
        = 3700) :=
  have h := static_capacities_in_current_mode sampleH (initialSketch sampleH powerModePack)
    rfl rfl
  ⟨⟨rfl, rfl⟩, ⟨by decide, by decide⟩, h.2.1.1, by decide, by decide⟩

end SBMInfo
